import Mathlib

/-!
# orbbec_kinfu: depth conditioning, point-cloud export and the capture/fusion loop

A shallow embedding of `src/orbbec_utils.h` (`truncateDepth`, `savePointsToPly`,
`saveRGBPointsToPly`), of the constructor of `OrbbecCameraMatrix` in `src/orbbec_cammat.h`, and
of `main` in `src/main.cpp` (command line, start-up, main loop), with the properties of the
specification that concern them.

Conventions of the embedding:
* machine integers are `Nat`/`Int`; a wrap-around is written out where the source can overflow;
* a frame buffer is the list of the records stored in it;
* the fusion engines of OpenCV, the camera pipeline and the windows are outside the repository:
  the engines are a record of functions over an abstract volume state, the camera and the
  keyboard are the inputs of a cycle, and every call the loop makes is logged as an event.
-/

namespace OrbbecKinfu

/-! ## Values of C -/

/-- A value of a binary floating-point type of C (`float`, `double`): the finite value
`(-1)^neg * mant * 2^exp`, an infinity, or a NaN. -/
inductive FloatVal where
  | finite (neg : Bool) (mant : Nat) (exp : Int)
  | inf (neg : Bool)
  | nan (neg : Bool)
  deriving DecidableEq, Repr

/-- The float with the value of a natural number. -/
def FloatVal.ofNat (n : Nat) : FloatVal := FloatVal.finite false n 0

/-! ## Depth conditioning (`truncateDepth`, orbbec_utils.h:114-124) -/

/-- The part of `ob::DepthFrame` the program reads: `width()`, `height()` (both `uint32_t`), the
buffer of 16-bit samples behind `data()` and `getValueScale()` (a `float`, millimetres per
unit). -/
structure DepthFrame where
  width : Nat
  height : Nat
  data : List Nat
  valueScale : FloatVal
  deriving DecidableEq, Repr

/-- A frame as the camera delivers it: a `width * height` grid of `uint16_t` samples whose
sample count fits the `uint32_t` in which the program computes it. -/
def DepthFrame.WellFormed (frame : DepthFrame) : Prop :=
  frame.data.length = frame.width * frame.height ∧
    frame.width * frame.height < 2 ^ 32 ∧
    ∀ v ∈ frame.data, v < 2 ^ 16

/-- Body of the loop of `truncateDepth` for one sample: two successive `if`s on the local `val`
(the second one tests the value the first one may have stored). -/
def truncateSample (min_value max_value min_default max_default : Nat) (val : Nat) : Nat :=
  let val := if val < min_value then min_default else val
  let val := if val > max_value then max_default else val
  val

/-- The loop `for(i = 0; i < dataSize; i++)` of `truncateDepth`: the first argument is the number
of iterations left, the list is the buffer from `pdata` on. Each iteration rewrites the sample
under `pdata` and advances the pointer; samples after the last iteration stay as they are. -/
def truncateLoop (min_value max_value min_default max_default : Nat) : Nat → List Nat → List Nat
  | 0, pdata => pdata
  | _ + 1, [] => []
  | n + 1, val :: pdata =>
    truncateSample min_value max_value min_default max_default val ::
      truncateLoop min_value max_value min_default max_default n pdata

/-- Embedding of `truncateDepth`: `dataSize` is the `uint32_t` product `width() * height()`, the
buffer is rewritten in place, width and height are untouched. -/
def truncateDepth (frame : DepthFrame) (min_value max_value min_default max_default : Nat) :
    DepthFrame :=
  let dataSize := (frame.width * frame.height) % 2 ^ 32
  { frame with data := truncateLoop min_value max_value min_default max_default dataSize frame.data }

/-! ## Point-cloud export (`savePointsToPly`, `saveRGBPointsToPly`, orbbec_utils.h:162-206) -/

/-- Quotient `num / den` rounded to the nearest integer, ties to the even one (the rounding of
`printf` in the default rounding mode). -/
def roundDivEven (num den : Nat) : Nat :=
  let q := num / den
  let r := num % den
  if den < 2 * r ∨ (2 * r = den ∧ q % 2 = 1) then q + 1 else q

/-- Magnitude of a finite value in thousandths, rounded: `|mant * 2^exp| * 1000`. -/
def milli (mant : Nat) (exp : Int) : Nat :=
  if 0 ≤ exp then mant * 2 ^ exp.toNat * 1000 else roundDivEven (mant * 1000) (2 ^ (-exp).toNat)

/-- Three decimal digits of a number below 1000, with leading zeros. -/
def digits3 (n : Nat) : String :=
  String.mk [Nat.digitChar (n / 100 % 10), Nat.digitChar (n / 10 % 10), Nat.digitChar (n % 10)]

/-- The conversion `%.3f` of `printf`: sign, integer part, a point and exactly three decimals;
`inf` and `nan` for the non-finite values. -/
def printf_3f : FloatVal → String
  | FloatVal.finite neg mant exp =>
    (if neg then "-" else "") ++ toString (milli mant exp / 1000) ++ "." ++
      digits3 (milli mant exp % 1000)
  | FloatVal.inf neg => (if neg then "-" else "") ++ "inf"
  | FloatVal.nan neg => (if neg then "-" else "") ++ "nan"

/-- The conversion `%d` of `printf`. -/
def printf_d (i : Int) : String := toString i

/-- The cast `(int)` of a float: truncation toward zero. Outside the range of `int` (and for
`inf`, `nan`) C leaves the result undefined; the embedding takes the value `INT_MIN` that the
x86-64 conversion instruction yields. -/
def FloatVal.toCInt : FloatVal → Int
  | FloatVal.finite neg mant exp =>
    let t : Nat := if 0 ≤ exp then mant * 2 ^ exp.toNat else mant / 2 ^ (-exp).toNat
    let i : Int := if neg then -(t : Int) else (t : Int)
    if -2 ^ 31 ≤ i ∧ i < 2 ^ 31 then i else -2 ^ 31
  | _ => -2 ^ 31

/-- Conversion of an unsigned value to `int` (32 bits, two's complement). -/
def toInt32 (n : Nat) : Int :=
  if n % 2 ^ 32 < 2 ^ 31 then ((n % 2 ^ 32 : Nat) : Int) else ((n % 2 ^ 32 : Nat) : Int) - 2 ^ 32

/-- The record `OBPoint` of the camera SDK: three `float` fields. -/
structure OBPoint where
  x : FloatVal
  y : FloatVal
  z : FloatVal
  deriving DecidableEq, Repr

/-- The record `OBColorPoint` of the camera SDK: six `float` fields. -/
structure OBColorPoint where
  x : FloatVal
  y : FloatVal
  z : FloatVal
  r : FloatVal
  g : FloatVal
  b : FloatVal
  deriving DecidableEq, Repr

/-- The value of `sizeof(OBPoint)`: three 4-byte floats. -/
def sizeofOBPoint : Nat := 12

/-- The value of `sizeof(OBColorPoint)`: six 4-byte floats. -/
def sizeofOBColorPoint : Nat := 24

/-- The part of `ob::Frame` the export reads: `dataSize()` (bytes, `uint32_t`) and the buffer
behind `data()` seen as an array of records of type `P`. -/
structure PointsFrame (P : Type) where
  dataSize : Nat
  data : List P
  deriving DecidableEq, Repr

/-- A point-cloud frame as the camera SDK delivers it: the byte size fits `uint32_t` and the
buffer holds as many whole records as fit in `dataSize` bytes. -/
def PointsFrame.WellFormed {P : Type} (recordSize : Nat) (frame : PointsFrame P) : Prop :=
  frame.dataSize < 2 ^ 32 ∧ frame.data.length = frame.dataSize / recordSize

/-- What a call of an export function leaves behind. `saved lines`: the function returned and
the file holds these lines, each ended by a newline (every `fprintf` of the source writes one
line). `nullStream`: `fopen` returned `NULL` and the function went on to `fprintf` on it, which
C leaves undefined (a crash in practice); nothing is returned to the caller. -/
inductive SaveResult where
  | saved (lines : List String)
  | nullStream
  deriving DecidableEq, Repr

/-- The loop `for(int i = 0; i < pointsSize; i++)` of both export functions: the first argument
is the number of iterations left, the list is the buffer from `point` on; each iteration prints
one line for the record under `point` and advances the pointer. -/
def writePoints {P : Type} (line : P → String) : Nat → List P → List String
  | 0, _ => []
  | _ + 1, [] => []
  | n + 1, point :: rest => line point :: writePoints line n rest

/-- The data line of `savePointsToPly`: format `"%.3f %.3f %.3f\n"`. -/
def xyzLine (point : OBPoint) : String :=
  printf_3f point.x ++ " " ++ printf_3f point.y ++ " " ++ printf_3f point.z

/-- The data line of `saveRGBPointsToPly`: format `"%.3f %.3f %.3f %d %d %d\n"`, the colours
cast to `int`. -/
def xyzrgbLine (point : OBColorPoint) : String :=
  printf_3f point.x ++ " " ++ printf_3f point.y ++ " " ++ printf_3f point.z ++ " " ++
    printf_d point.r.toCInt ++ " " ++ printf_d point.g.toCInt ++ " " ++ printf_d point.b.toCInt

/-- Embedding of `savePointsToPly`. `canOpen` tells whether `fopen(fileName, "wb+")` succeeds;
the source does not test the pointer it gets. -/
def savePointsToPly (canOpen : String → Bool) (frame : PointsFrame OBPoint) (fileName : String) :
    SaveResult :=
  let pointsSize : Int := toInt32 ((frame.dataSize % 2 ^ 32) / sizeofOBPoint)
  if canOpen fileName then
    SaveResult.saved
      (["ply",
        "format ascii 1.0",
        "element vertex " ++ printf_d pointsSize,
        "property float x",
        "property float y",
        "property float z",
        "end_header"] ++ writePoints xyzLine pointsSize.toNat frame.data)
  else
    SaveResult.nullStream

/-- Embedding of `saveRGBPointsToPly`. -/
def saveRGBPointsToPly (canOpen : String → Bool) (frame : PointsFrame OBColorPoint)
    (fileName : String) : SaveResult :=
  let pointsSize : Int := toInt32 ((frame.dataSize % 2 ^ 32) / sizeofOBColorPoint)
  if canOpen fileName then
    SaveResult.saved
      (["ply",
        "format ascii 1.0",
        "element vertex " ++ printf_d pointsSize,
        "property float x",
        "property float y",
        "property float z",
        "property uchar red",
        "property uchar green",
        "property uchar blue",
        "end_header"] ++ writePoints xyzrgbLine pointsSize.toNat frame.data)
  else
    SaveResult.nullStream

/-- The 4-point frame of the export scenario: `(1,2,3), (4,5,6), (7,8,9), (0,0,0)`. -/
def scenarioFrame : PointsFrame OBPoint :=
  { dataSize := 48
    data := [⟨FloatVal.ofNat 1, FloatVal.ofNat 2, FloatVal.ofNat 3⟩,
             ⟨FloatVal.ofNat 4, FloatVal.ofNat 5, FloatVal.ofNat 6⟩,
             ⟨FloatVal.ofNat 7, FloatVal.ofNat 8, FloatVal.ofNat 9⟩,
             ⟨FloatVal.ofNat 0, FloatVal.ofNat 0, FloatVal.ofNat 0⟩] }

/-! ## Start-up and the main loop (main.cpp:214-224, 242-382) -/

/-- The record `APP_PARAMS_T` (main.cpp:46-84). `ob_align_mode` is the number of the alignment
mode (0 disabled, 1 hardware, 2 software). -/
structure APP_PARAMS_T where
  ob_align_mode : Int
  ob_timeout_ms : Nat
  color_width : Int
  depth_width : Int
  fps : Int
  min_depth_mm : Int
  max_depth_mm : Int
  kinfu_mode : Int
  b_kinfu_coarse : Bool
  kinfu_show_mode : Int
  b_opencl_off : Bool
  b_kinfu_reset_in_icp_fail : Bool
  show_scale : FloatVal
  deriving DecidableEq, Repr

/-- The constructor `APP_PARAMS_T()`: the default values of main.cpp:65-83. -/
def APP_PARAMS_T.ctor : APP_PARAMS_T :=
  { ob_align_mode := 2
    ob_timeout_ms := 100
    color_width := 1920
    depth_width := 640
    fps := 15
    min_depth_mm := 0
    max_depth_mm := 5000
    kinfu_mode := 0
    b_kinfu_coarse := false
    kinfu_show_mode := 0
    b_opencl_off := false
    b_kinfu_reset_in_icp_fail := false
    show_scale := FloatVal.finite false 1 (-1) }

/-- The part of `cv::Mat` the loop depends on: size and pixel payload. -/
structure Mat where
  rows : Nat
  cols : Nat
  data : List Nat
  deriving DecidableEq, Repr

/-- A default-constructed (empty) `cv::Mat`. -/
def Mat.none : Mat := ⟨0, 0, []⟩

/-- A colour frame of the camera, given by the image `convObFrame2CvMat` makes of it (the JPEG
decoding is OpenCV code). -/
structure ColorFrame where
  decoded : Mat
  deriving DecidableEq, Repr

/-- Embedding of `convObFrame2CvMat` on a depth frame (format Y16: one channel of two bytes):
the buffer is wrapped in a `height x width` matrix unless the `uint32_t` size expected for it
is zero. -/
def convObFrame2CvMat (frame : DepthFrame) : Mat :=
  let expectedSize := (frame.width * frame.height * 1 * 2) % 2 ^ 32
  if expectedSize ≠ 0 then ⟨frame.height, frame.width, frame.data⟩ else Mat.none

/-- What `pipe.waitForFrames` hands over when it does not time out: the colour frame and the
depth frame (each may be missing), and the point-cloud frames that `pointCloud.process` computes
from this frame set in the formats `OB_FORMAT_POINT` and `OB_FORMAT_RGB_POINT`. -/
structure FrameSet where
  colorFrame : Option ColorFrame
  depthFrame : Option DepthFrame
  points : PointsFrame OBPoint
  rgbPoints : PointsFrame OBColorPoint

/-- What the surroundings supply in one cycle of the loop: the result of `pipe.waitForFrames`
(`none` is the null pointer of a timeout), the key `cv::waitKey(1)` returns, and whether a file
can be opened for writing. -/
structure CycleInput where
  frameSet : Option FrameSet
  key : Int
  canOpen : String → Bool

/-- The surface of a fusion engine of OpenCV (`cv::kinfu::KinFu`,
`cv::colored_kinfu::ColoredKinFu`) that the program uses, over an abstract volume state and
with `In` the arguments of `update`. `render`, `getCloud`, `getParams` and `getPose` are `const`
queries: they do not appear as state transformers, and of `getCloud` only the emptiness test of
`get_and_show_point_clouds` is kept. -/
structure Engine (In : Type) where
  Params : Type
  Volume : Type
  create : Params → Volume
  update : Volume → In → Bool × Volume
  reset : Volume → Volume
  cloudNonempty : Volume → Bool

/-- The two engine handles of `main`. -/
inductive EngineId where
  | kf
  | kfc
  deriving DecidableEq, Repr

/-- The calls and outputs of one cycle, in program order. -/
inductive Event where
  | truncateDepth (min_value max_value : Nat)
  | update (e : EngineId) (ok : Bool)
  | reset (e : EngineId)
  | render (e : EngineId)
  | getCloud (e : EngineId)
  | getParams (e : EngineId)
  | getPose (e : EngineId)
  | imshow (winname : String)
  | showWidget (id : String)
  | setViewerPose
  | spinOnce
  | print (msg : String)
  | eprint (msg : String)
  | save (fileName : String) (result : SaveResult)
  deriving DecidableEq, Repr

/-- The engine an event is a call on, if it is one. -/
def Event.engine : Event → Option EngineId
  | Event.update e _ => some e
  | Event.reset e => some e
  | Event.render e => some e
  | Event.getCloud e => some e
  | Event.getParams e => some e
  | Event.getPose e => some e
  | _ => Option.none

/-- The calls on engine `e` among the events, in order. -/
def engineCalls (e : EngineId) (events : List Event) : List Event :=
  events.filter (fun ev => ev.engine = some e)

/-- Embedding of `get_and_show_point_clouds` (main.cpp:14-31) on the engine `e` whose volume is
`v`. -/
def get_and_show_point_clouds {In : Type} (K : Engine In) (e : EngineId) (v : K.Volume)
    (kinfu_show_mode : Int) : List Event :=
  [Event.getCloud e] ++
    (if K.cloudNonempty v then
      [Event.showWidget "cloud"] ++
        (if kinfu_show_mode > 1 then [Event.showWidget "normals"] else []) ++
        [Event.getParams e, Event.getParams e, Event.getParams e, Event.showWidget "cube",
          Event.getPose e, Event.setViewerPose, Event.spinOnce]
    else [])

/-- The block `process kinfu` (main.cpp:292-311) and, with the other handle, arguments and
window name, the block `process colored_kinfu` (main.cpp:314-333): `handle` is `kf` or `kfc`
(`none` for an empty `cv::Ptr`), `input` the arguments of `update`. Returns the handle with the
volume it now has and the events of the block. -/
def processKinfu {In : Type} (K : Engine In) (e : EngineId) (winname : String)
    (par : APP_PARAMS_T) (b_pause_3dviz : Bool) (handle : Option K.Volume) (input : In) :
    Option K.Volume × List Event :=
  match handle with
  | Option.none => (Option.none, [])
  | some v =>
    let r := K.update v input
    if r.1 = false then
      if par.b_kinfu_reset_in_icp_fail then
        (some (K.reset r.2), [Event.update e false, Event.print "ICP fails.", Event.reset e])
      else
        (some r.2, [Event.update e false, Event.print "ICP fails."])
    else
      (some r.2,
        [Event.update e true, Event.render e, Event.imshow winname] ++
          (if par.kinfu_show_mode > 0 ∧ b_pause_3dviz = false then
            get_and_show_point_clouds K e r.2 par.kinfu_show_mode
          else []))

/-- The variables of `main` that live across cycles: the two engine handles with the volume
each engine holds, `b_first` and `b_pause_3dviz`. -/
structure LoopState (K : Engine Mat) (Kc : Engine (Mat × Mat)) where
  kf : Option K.Volume
  kfc : Option Kc.Volume
  b_first : Bool
  b_pause_3dviz : Bool

/-- How a cycle ends: `next` is the start of the following cycle (by `continue` or by reaching
the end of the body), `quit` the `break` on ESC, `crash` the undefined behaviour of an export
on a file that could not be opened. -/
inductive Control where
  | next
  | quit
  | crash
  deriving DecidableEq, Repr

/-- Outcome of one cycle. -/
structure CycleResult (K : Engine Mat) (Kc : Engine (Mat × Mat)) where
  state : LoopState K Kc
  events : List Event
  control : Control

/-- The statement `prepare kinfu` of `main` (main.cpp:214-224): each handle is created under its
own test of `kinfu_mode`; `kinfuParams` and `coloredParams` are what `cam->getKinfuParams()` and
`cam->getColoredKinfuParams()` return. The result is the state in which the loop is entered
(`b_first = true`, `b_pause_3dviz = false`, main.cpp:240-241). -/
def prepareKinfu (K : Engine Mat) (Kc : Engine (Mat × Mat)) (par : APP_PARAMS_T)
    (kinfuParams : K.Params) (coloredParams : Kc.Params) : LoopState K Kc :=
  { kf := if par.kinfu_mode = 1 then some (K.create kinfuParams) else Option.none
    kfc := if par.kinfu_mode = 2 then some (Kc.create coloredParams) else Option.none
    b_first := true
    b_pause_3dviz := false }

/-- The part of a cycle after `cv::waitKey` when the key is not ESC (main.cpp:349-375): the
commands `r` (114), `s` (115) and `f` (102). `frameSet` is the frame set of the cycle, `kf` and
`kfc` the handles after the fusion blocks. -/
def keyCommands (K : Engine Mat) (Kc : Engine (Mat × Mat)) (par : APP_PARAMS_T)
    (inp : CycleInput) (frameSet : FrameSet) (kf : Option K.Volume) (kfc : Option Kc.Volume)
    (b_pause_3dviz : Bool) (events : List Event) : CycleResult K Kc :=
  let kf1 := if inp.key = 114 then kf.map K.reset else kf
  let kfc1 := if inp.key = 114 then kfc.map Kc.reset else kfc
  let evReset :=
    if inp.key = 114 then
      [Event.print "kinfu reset"] ++ (if kf.isSome then [Event.reset EngineId.kf] else []) ++
        (if kfc.isSome then [Event.reset EngineId.kfc] else [])
    else []
  let saved : Option (String × SaveResult) :=
    if inp.key = 115 then
      if par.kinfu_mode = 1 then
        some ("depth.ply", savePointsToPly inp.canOpen frameSet.points "depth.ply")
      else if par.kinfu_mode = 2 then
        some ("color.ply", saveRGBPointsToPly inp.canOpen frameSet.rgbPoints "color.ply")
      else Option.none
    else Option.none
  match saved with
  | some (fileName, SaveResult.nullStream) =>
    { state := { kf := kf1, kfc := kfc1, b_first := true, b_pause_3dviz := b_pause_3dviz }
      events := events ++ evReset ++ [Event.save fileName SaveResult.nullStream]
      control := Control.crash }
  | some (fileName, SaveResult.saved lines) =>
    { state := { kf := kf1, kfc := kfc1, b_first := false,
                 b_pause_3dviz := if inp.key = 102 then !b_pause_3dviz else b_pause_3dviz }
      events := events ++ evReset ++
        [Event.save fileName (SaveResult.saved lines), Event.print (fileName ++ " is saved.")]
      control := Control.next }
  | Option.none =>
    { state := { kf := kf1, kfc := kfc1, b_first := false,
                 b_pause_3dviz := if inp.key = 102 then !b_pause_3dviz else b_pause_3dviz }
      events := events ++ evReset
      control := Control.next }

/-- The depth conditioning of a cycle (main.cpp:264-265): `truncateDepth` with both defaults
`0`. `toU16 mm scale` is the `uint16_t` that C makes of the `float` quotient `mm / scale` when
it is passed to `truncateDepth`. -/
def conditionDepth (toU16 : Int → FloatVal → Nat) (par : APP_PARAMS_T) (depthFrame : DepthFrame) :
    DepthFrame :=
  truncateDepth depthFrame (toU16 par.min_depth_mm depthFrame.valueScale)
    (toU16 par.max_depth_mm depthFrame.valueScale) 0 0

/-- The matrix `bgr` of a cycle (main.cpp:274-277): the colour image unless the mode is
depth-only, in which case it stays empty. -/
def bgrMat (par : APP_PARAMS_T) (frameSet : FrameSet) : Mat :=
  if par.kinfu_mode ≠ 1 then
    match frameSet.colorFrame with
    | some colorFrame => colorFrame.decoded
    | Option.none => Mat.none
  else Mat.none

/-- A cycle from the point where the frame set and its depth frame are at hand
(main.cpp:263-375): conditioning, the two fusion blocks, the windows, the key. -/
def cycleBody (K : Engine Mat) (Kc : Engine (Mat × Mat)) (toU16 : Int → FloatVal → Nat)
    (par : APP_PARAMS_T) (st : LoopState K Kc) (inp : CycleInput) (frameSet : FrameSet)
    (depthFrame : DepthFrame) : CycleResult K Kc :=
  let truncated := conditionDepth toU16 par depthFrame
  let evCapture := if st.b_first then [Event.print "capture"] else []
  let bgr := bgrMat par frameSet
  let depth := convObFrame2CvMat truncated
  let r1 := processKinfu K EngineId.kf "kinfu render" par st.b_pause_3dviz st.kf depth
  let r2 := processKinfu Kc EngineId.kfc "colored_kinfu render" par st.b_pause_3dviz
    st.kfc (depth, bgr)
  let evShow :=
    (if st.b_pause_3dviz then [Event.spinOnce] else []) ++ [Event.imshow "Depth"] ++
      (if par.kinfu_mode ≠ 1 then [Event.imshow "Color", Event.imshow "Fuse"] else [])
  let events :=
    [Event.truncateDepth (toU16 par.min_depth_mm depthFrame.valueScale)
      (toU16 par.max_depth_mm depthFrame.valueScale)] ++ evCapture ++ r1.2 ++ r2.2 ++ evShow
  if inp.key = 27 then
    { state := { kf := r1.1, kfc := r2.1, b_first := st.b_first,
                 b_pause_3dviz := st.b_pause_3dviz }
      events := events
      control := Control.quit }
  else
    keyCommands K Kc par inp frameSet r1.1 r2.1 st.b_pause_3dviz events

/-- One cycle of the `while(1)` loop of `main` (main.cpp:242-382): the three `continue`s on a
timeout, a missing colour frame and a missing depth frame, then the body. The wall-clock
readings and the two timing lines printed at the end of a cycle are left out. -/
def cycle (K : Engine Mat) (Kc : Engine (Mat × Mat)) (toU16 : Int → FloatVal → Nat)
    (par : APP_PARAMS_T) (st : LoopState K Kc) (inp : CycleInput) : CycleResult K Kc :=
  match inp.frameSet with
  | Option.none => { state := st, events := [], control := Control.next }
  | some frameSet =>
    if par.kinfu_mode ≠ 1 ∧ frameSet.colorFrame = Option.none then
      { state := st, events := [Event.eprint "drop frame bgr"], control := Control.next }
    else
      match frameSet.depthFrame with
      | Option.none =>
        { state := st, events := [Event.eprint "drop frame depth"], control := Control.next }
      | some depthFrame => cycleBody K Kc toU16 par st inp frameSet depthFrame

/-- Outcome of a run of the loop. -/
structure RunResult (K : Engine Mat) (Kc : Engine (Mat × Mat)) where
  state : LoopState K Kc
  events : List Event
  control : Control

/-- The loop `while(1)` driven by a finite script of inputs, one per cycle: cycles follow one
another while they end in `next`; a `quit` or a `crash` ends the run, whatever inputs are left.
The result holds the variables and the events when the script is used up or the run has ended. -/
def run (K : Engine Mat) (Kc : Engine (Mat × Mat)) (toU16 : Int → FloatVal → Nat)
    (par : APP_PARAMS_T) : List CycleInput → LoopState K Kc → RunResult K Kc
  | [], st => { state := st, events := [], control := Control.next }
  | inp :: rest, st =>
    let r := cycle K Kc toU16 par st inp
    match r.control with
    | Control.next =>
      let r1 := run K Kc toU16 par rest r.state
      { state := r1.state, events := r.events ++ r1.events, control := r1.control }
    | Control.quit => { state := r.state, events := r.events, control := Control.quit }
    | Control.crash => { state := r.state, events := r.events, control := Control.crash }

/-! ## Camera parameters and start-up (orbbec_cammat.h:12-68, main.cpp:204-224) -/

/-- The record `OBCameraIntrinsic` of the camera SDK: focal lengths and principal point
(`float`), image width and height (`int16_t`). -/
structure OBCameraIntrinsic where
  fx : FloatVal
  fy : FloatVal
  cx : FloatVal
  cy : FloatVal
  width : Int
  height : Int
  deriving DecidableEq, Repr

/-- The record `OBCameraDistortion` of the camera SDK: eight `float` coefficients. -/
structure OBCameraDistortion where
  k1 : FloatVal
  k2 : FloatVal
  k3 : FloatVal
  k4 : FloatVal
  k5 : FloatVal
  k6 : FloatVal
  p1 : FloatVal
  p2 : FloatVal
  deriving DecidableEq, Repr

/-- The part of `OBCameraParam` the program reads: intrinsics and distortion of the depth and
of the colour sensor. -/
structure OBCameraParam where
  depthIntrinsic : OBCameraIntrinsic
  rgbIntrinsic : OBCameraIntrinsic
  depthDistortion : OBCameraDistortion
  rgbDistortion : OBCameraDistortion
  deriving DecidableEq, Repr

/-- What `prepare` sets in the `cv::kinfu::Params` it takes from OpenCV: `coarse` tells which
preset it starts from (`coarseParams()` or `defaultParams()`), `intr` is the 3x3 matrix in row
order. -/
structure KinfuParams where
  coarse : Bool
  frameSize : Int × Int
  intr : List FloatVal
  depthFactor : FloatVal
  deriving DecidableEq, Repr

/-- What `prepare` sets in the `cv::colored_kinfu::Params` it takes from
`coloredTSDFParams(coarse)`. -/
structure ColoredKinfuParams where
  coarse : Bool
  frameSize : Int × Int
  intr : List FloatVal
  depthFactor : FloatVal
  rgb_frameSize : Int × Int
  rgb_intr : List FloatVal
  deriving DecidableEq, Repr

/-- The members of an `OrbbecCameraMatrix` after its constructor has run. The undistortion
maps, which OpenCV computes when `b_undistort` is set, are left out. -/
structure OrbbecCameraMatrix where
  ob_param : OBCameraParam
  b_undistort : Bool
  cfg_b_coarse : Bool
  depth_intrinsic : List FloatVal
  color_intrinsic : List FloatVal
  kinfu_params : KinfuParams
  colored_kinfu_params : ColoredKinfuParams
  deriving DecidableEq, Repr

/-- The 3x3 matrix `fx, 0, cx, 0, fy, cy, 0, 0, 1` that `prepare` makes of an intrinsic. -/
def intrinsicMatrix (i : OBCameraIntrinsic) : List FloatVal :=
  [i.fx, FloatVal.ofNat 0, i.cx, FloatVal.ofNat 0, i.fy, i.cy,
    FloatVal.ofNat 0, FloatVal.ofNat 0, FloatVal.ofNat 1]

/-- Embedding of the constructor of `OrbbecCameraMatrix` with the `prepare()` it calls
(orbbec_cammat.h:12-68). With or without `b_undistort` the parameters get the matrix made of
the intrinsic: `undistort_depth_intrinsic` is assigned `depth_intrinsic` and not changed. No
test of any width or height is made here. -/
def OrbbecCameraMatrix.prepare (_ob_param : OBCameraParam) (b_coarse : Bool)
    (_b_undistort : Bool) : OrbbecCameraMatrix :=
  let di := _ob_param.depthIntrinsic
  let ci := _ob_param.rgbIntrinsic
  let depthFrameSize := (di.width, di.height)
  let colorFrameSize := (ci.width, ci.height)
  let depth_intrinsic := intrinsicMatrix di
  let color_intrinsic := intrinsicMatrix ci
  let undistort_depth_intrinsic := depth_intrinsic
  let undistort_color_intrinsic := color_intrinsic
  { ob_param := _ob_param
    b_undistort := _b_undistort
    cfg_b_coarse := b_coarse
    depth_intrinsic := depth_intrinsic
    color_intrinsic := color_intrinsic
    kinfu_params :=
      { coarse := b_coarse
        frameSize := depthFrameSize
        intr := if _b_undistort then undistort_depth_intrinsic else depth_intrinsic
        depthFactor := FloatVal.ofNat 1000 }
    colored_kinfu_params :=
      { coarse := b_coarse
        frameSize := depthFrameSize
        intr := if _b_undistort then undistort_depth_intrinsic else depth_intrinsic
        depthFactor := FloatVal.ofNat 1000
        rgb_frameSize := colorFrameSize
        rgb_intr := if _b_undistort then undistort_color_intrinsic else color_intrinsic } }

/-- The steps of start-up between reading the camera parameters and entering the loop. -/
inductive StartupEvent where
  | print (msg : String)
  | cameraMatrix
  | createKf
  | createKfc
  deriving DecidableEq, Repr

/-- How start-up ends: the process exits with a status, or the loop is entered with the camera
matrix and the loop variables. Both carry the steps taken, in order. -/
inductive StartupResult (K : Engine Mat) (Kc : Engine (Mat × Mat)) where
  | exited (code : Int) (events : List StartupEvent)
  | entered (cam : OrbbecCameraMatrix) (state : LoopState K Kc) (events : List StartupEvent)

/-- Start-up from the camera parameters to the engines (main.cpp:204-224): the one test made
on the parameters is `depthIntrinsic.width == 0`, which prints a line and calls `exit(-1)`;
otherwise the camera matrix is built and the engines are created by `prepareKinfu`.
`kinfuParamsOf` and `coloredParamsOf` stand for the OpenCV parameter objects that carry the
fields `prepare` has set. -/
def startup (K : Engine Mat) (Kc : Engine (Mat × Mat)) (kinfuParamsOf : KinfuParams → K.Params)
    (coloredParamsOf : ColoredKinfuParams → Kc.Params) (par : APP_PARAMS_T)
    (cameraParam : OBCameraParam) : StartupResult K Kc :=
  if cameraParam.depthIntrinsic.width = 0 then
    StartupResult.exited (-1)
      [StartupEvent.print "depth width=0 (The camera may not support HW D2C)."]
  else
    let cam := OrbbecCameraMatrix.prepare cameraParam par.b_kinfu_coarse false
    StartupResult.entered cam
      (prepareKinfu K Kc par (kinfuParamsOf cam.kinfu_params)
        (coloredParamsOf cam.colored_kinfu_params))
      ([StartupEvent.cameraMatrix] ++
        (if par.kinfu_mode = 1 then [StartupEvent.createKf] else []) ++
        (if par.kinfu_mode = 2 then [StartupEvent.createKfc] else []))

/-! ## Command line (main.cpp:86-144) -/

/-- The test `isspace` of C in the default locale: space, tab, line feed, vertical tab, form
feed, carriage return. -/
def isspace (c : Char) : Bool := c.toNat = 32 || (9 ≤ c.toNat && c.toNat ≤ 13)

/-- The digits at the head of a string, read as a decimal number on top of `acc`. -/
def atoiDigits : Nat → List Char → Nat
  | acc, [] => acc
  | acc, c :: cs => if c.isDigit then atoiDigits (acc * 10 + (c.toNat - 48)) cs else acc

/-- Conversion of an integer to `int`: the low 32 bits, two's complement. -/
def wrapInt32 (i : Int) : Int := (i + 2 ^ 31) % 2 ^ 32 - 2 ^ 31

/-- The function `atoi` of C: leading white space, an optional sign, then digits; `0` when
there is no digit. Where the number does not fit, which C leaves undefined, the embedding
takes what the C library of the platform does: `(int) strtol(s, NULL, 10)`, a `long` that
saturates and is then cut to 32 bits. -/
def atoi (s : String) : Int :=
  let cs := s.toList.dropWhile isspace
  let signed : Bool × List Char :=
    match cs with
    | '-' :: r => (true, r)
    | '+' :: r => (false, r)
    | r => (false, r)
  let n : Int := (atoiDigits 0 signed.2 : Nat)
  let l : Int := if signed.1 then max (-n) (-2 ^ 63) else min n (2 ^ 63 - 1)
  wrapInt32 l

/-- Magnitude of a finite value in hundredths, rounded. -/
def centi (mant : Nat) (exp : Int) : Nat :=
  if 0 ≤ exp then mant * 2 ^ exp.toNat * 100 else roundDivEven (mant * 100) (2 ^ (-exp).toNat)

/-- The conversion `%.2f` of `printf`. -/
def printf_2f : FloatVal → String
  | FloatVal.finite neg mant exp =>
    (if neg then "-" else "") ++ toString (centi mant exp / 100) ++ "." ++
      String.mk [Nat.digitChar (centi mant exp / 10 % 10), Nat.digitChar (centi mant exp % 10)]
  | FloatVal.inf neg => (if neg then "-" else "") ++ "inf"
  | FloatVal.nan neg => (if neg then "-" else "") ++ "nan"

/-- Embedding of `usage_key` (main.cpp:86-94): the lines it prints. -/
def usage_key : List String :=
  ["keys:",
   "  ESC : quit app",
   "  s : save depth.ply in depth-kinfu, color.ply in colored-kinfu",
   "  r : reset kinfu",
   "  f : freeze 3D View / restore",
   "  "]

/-- Embedding of `usage` (main.cpp:95-108): the lines it prints for the program name `argv0`
and the parameters as they are when `--help` is met. -/
def usage (argv0 : String) (par : APP_PARAMS_T) : List String :=
  ["usage: " ++ argv0 ++ " [options]",
   " -a [align_mode(" ++ printf_d par.ob_align_mode ++ ")]  0:Disabled, 1:HW, 2:SW",
   " -k [kinfu_mode(" ++ printf_d par.kinfu_mode ++ ")]  0:Disabled, 1:depth, 2:colored",
   " -kc                  coarse in colored kinfu",
   " -kr                  reset kinfu if ICP fails.",
   " -ks [kinfu_show_mode(" ++ printf_d par.kinfu_show_mode ++
     ")]  0: render, 1: +3D_View, 2: +normals",
   " -md [max_depth_mm(" ++ printf_d par.max_depth_mm ++ ")]  max depth in mm",
   " -cloff               set openCL off",
   " -ss [show_scale(" ++ printf_2f par.show_scale ++ ")]  window show scale",
   " "] ++ usage_key

/-- How the parsing of the command line ends. `parsed`: the loop over `argv` is through and
`main` goes on with these parameters. `exited`: `exit(code)` was called after these lines were
printed. `nullArgument`: an option that takes a value was the last word, so `argv[++i]` is the
null pointer that ends `argv` and `atoi` of it is undefined. -/
inductive ParseResult where
  | parsed (par : APP_PARAMS_T)
  | exited (code : Int) (output : List String)
  | nullArgument
  deriving DecidableEq, Repr

/-- The loop `for(int i=1; i<argc; i++)` of `main` (main.cpp:114-144) on the words from
`argv[i]` on: the chain of `strcmp` tests in source order; an option with a value consumes the
next word by `argv[++i]`. -/
def parseArgs (argv0 : String) : APP_PARAMS_T → List String → ParseResult
  | par, [] => ParseResult.parsed par
  | par, arg :: rest =>
    if arg = "--help" then ParseResult.exited 0 (usage argv0 par)
    else if arg = "-a" then
      match rest with
      | [] => ParseResult.nullArgument
      | value :: rest1 => parseArgs argv0 { par with ob_align_mode := atoi value } rest1
    else if arg = "-k" then
      match rest with
      | [] => ParseResult.nullArgument
      | value :: rest1 => parseArgs argv0 { par with kinfu_mode := atoi value } rest1
    else if arg = "-kc" then parseArgs argv0 { par with b_kinfu_coarse := true } rest
    else if arg = "-kr" then parseArgs argv0 { par with b_kinfu_reset_in_icp_fail := true } rest
    else if arg = "-ks" then
      match rest with
      | [] => ParseResult.nullArgument
      | value :: rest1 => parseArgs argv0 { par with kinfu_show_mode := atoi value } rest1
    else if arg = "-md" then
      match rest with
      | [] => ParseResult.nullArgument
      | value :: rest1 => parseArgs argv0 { par with max_depth_mm := atoi value } rest1
    else if arg = "-cloff" then parseArgs argv0 { par with b_opencl_off := true } rest
    else ParseResult.exited (-1) ["unknown option " ++ arg]

/-- The argument parsing of `main` on the whole of `argv`: default parameters, then the loop
from `argv[1]` on. -/
def parseCommandLine (argv : List String) : ParseResult :=
  match argv with
  | [] => ParseResult.parsed APP_PARAMS_T.ctor
  | argv0 :: args => parseArgs argv0 APP_PARAMS_T.ctor args

/-! ## Float arithmetic of the depth thresholds (main.cpp:264-265) -/

/-- The number of binary digits of `n`, computed with `fuel` halvings at most. -/
def bitLengthAux : Nat → Nat → Nat
  | 0, _ => 0
  | fuel + 1, n => if n = 0 then 0 else bitLengthAux fuel (n / 2) + 1

/-- The number of binary digits of `n` (`0` for `0`). -/
def bitLength (n : Nat) : Nat := bitLengthAux n n

/-- For positive `num` and `den`: the integer part of the binary logarithm of `num / den`. The
quotient lies strictly between `2^(k-1)` and `2^(k+1)` for `k` the difference of the bit
lengths; one comparison decides. -/
def ilog2Ratio (num den : Nat) : Int :=
  let k : Int := (bitLength num : Int) - (bitLength den : Int)
  let atLeast : Bool :=
    if 0 ≤ k then decide (den * 2 ^ k.toNat ≤ num) else decide (den ≤ num * 2 ^ (-k).toNat)
  if atLeast then k else k - 1

/-- The `float` (IEEE-754 binary32) nearest to the exact quotient `num / den` with the sign
`neg`, ties to even: 24 significant bits, exponent of the last bit not below `-149`
(subnormal range), infinity from `2^128` on. `den` is positive. -/
def roundF32 (neg : Bool) (num den : Nat) : FloatVal :=
  if num = 0 then FloatVal.finite neg 0 0
  else
    let e : Int := max (ilog2Ratio num den - 23) (-149)
    let mant : Nat :=
      if 0 ≤ e then roundDivEven num (den * 2 ^ e.toNat)
      else roundDivEven (num * 2 ^ (-e).toNat) den
    if 104 < e ∨ (e = 104 ∧ mant = 2 ^ 24) then FloatVal.inf neg else FloatVal.finite neg mant e

/-- Conversion of an `int` to `float`. -/
def intToFloat (i : Int) : FloatVal := roundF32 (decide (i < 0)) i.natAbs 1

/-- Division of two `float`s, rounded to `float`. -/
def FloatVal.div : FloatVal → FloatVal → FloatVal
  | FloatVal.nan s, _ => FloatVal.nan s
  | _, FloatVal.nan s => FloatVal.nan s
  | FloatVal.inf _, FloatVal.inf _ => FloatVal.nan true
  | FloatVal.inf s1, FloatVal.finite s2 _ _ => FloatVal.inf (xor s1 s2)
  | FloatVal.finite s1 _ _, FloatVal.inf s2 => FloatVal.finite (xor s1 s2) 0 0
  | FloatVal.finite s1 m1 e1, FloatVal.finite s2 m2 e2 =>
    if m2 = 0 then
      if m1 = 0 then FloatVal.nan true else FloatVal.inf (xor s1 s2)
    else
      roundF32 (xor s1 s2) (m1 * 2 ^ (e1 - e2).toNat) (m2 * 2 ^ (e2 - e1).toNat)

/-- The `uint16_t` C makes of a `float` passed for a `uint16_t` parameter: the value truncated
toward zero when that lies in `[0, 65535]`. Outside this range C leaves the conversion
undefined; the embedding takes the low 16 bits of the conversion to `int`, as the code
generated for x86-64 does. -/
def FloatVal.toU16 (x : FloatVal) : Nat := (x.toCInt % 65536).toNat

/-- The threshold `mm / depthValueScale` as `truncateDepth` receives it (main.cpp:265): the
`int` is converted to `float`, divided by the `float` scale, and the quotient converted to
`uint16_t`. -/
def depthThreshold (mm : Int) (depthValueScale : FloatVal) : Nat :=
  (FloatVal.div (intToFloat mm) depthValueScale).toU16

/-- The exact value of a float as a rational number (`0` for infinities and NaNs, which have
none). -/
def FloatVal.toRat : FloatVal → ℚ
  | FloatVal.finite neg mant exp => (if neg then -1 else 1) * (mant : ℚ) * (2 : ℚ) ^ exp
  | _ => 0

/-! ## Fixtures for concrete evaluation -/

/-- A small depth-only engine on which the loop can be evaluated: the volume is the list of the
sample sums of the frames integrated so far, and tracking fails on a frame without any non-zero
sample, leaving the volume as it was. -/
@[reducible]
def sumEngine : Engine Mat :=
  { Params := Unit
    Volume := List Nat
    create := fun _ => []
    update := fun v depth => if depth.data.sum = 0 then (false, v) else (true, depth.data.sum :: v)
    reset := fun _ => []
    cloudNonempty := fun v => !v.isEmpty }

/-- The coloured counterpart of `sumEngine`: it also records the sample sum of the colour
image. -/
@[reducible]
def sumColoredEngine : Engine (Mat × Mat) :=
  { Params := Unit
    Volume := List (Nat × Nat)
    create := fun _ => []
    update := fun v input =>
      if input.1.data.sum = 0 then (false, v) else (true, (input.1.data.sum, input.2.data.sum) :: v)
    reset := fun _ => []
    cloudNonempty := fun v => !v.isEmpty }

/-- A frame set with a 2x2 depth grid, a colour image, and the scenario frame as XYZ cloud. -/
def sampleFrameSet (depth : List Nat) : FrameSet :=
  { colorFrame := some ⟨⟨1, 1, [7]⟩⟩
    depthFrame := some ⟨2, 2, depth, FloatVal.ofNat 1⟩
    points := scenarioFrame
    rgbPoints := ⟨24, [⟨FloatVal.ofNat 1, FloatVal.ofNat 2, FloatVal.ofNat 3,
                        FloatVal.ofNat 255, FloatVal.ofNat 128, FloatVal.ofNat 0⟩]⟩ }

/-- A conversion of `mm / scale` to `uint16_t` for concrete evaluations, right for a scale of
`1`: the number `mm` itself, reduced to 16 bits. -/
def toU16Unit (mm : Int) (_scale : FloatVal) : Nat := (mm % 65536).toNat

/-- The parameters `-k mode` with or without `-kr`, everything else at its default. -/
def parOf (mode : Int) (resetOnFail : Bool) : APP_PARAMS_T :=
  { APP_PARAMS_T.ctor with kinfu_mode := mode, b_kinfu_reset_in_icp_fail := resetOnFail }

/-- The input of a cycle that delivers `sampleFrameSet depth` and the key `key`; files can be
opened. -/
def sampleInput (depth : List Nat) (key : Int) : CycleInput :=
  { frameSet := some (sampleFrameSet depth), key := key, canOpen := fun _ => true }

/-- The input of a cycle in which `waitForFrames` times out. -/
def timeoutInput : CycleInput :=
  { frameSet := Option.none, key := -1, canOpen := fun _ => true }

/-- An intrinsic with focal length 500, principal point at the origin and the given size. -/
def sampleIntrinsic (width height : Int) : OBCameraIntrinsic :=
  { fx := FloatVal.ofNat 500, fy := FloatVal.ofNat 500, cx := FloatVal.ofNat 0,
    cy := FloatVal.ofNat 0, width := width, height := height }

/-- Camera parameters without distortion for the given depth and colour sizes. -/
def sampleCameraParam (dw dh cw ch : Int) : OBCameraParam :=
  { depthIntrinsic := sampleIntrinsic dw dh
    rgbIntrinsic := sampleIntrinsic cw ch
    depthDistortion := ⟨FloatVal.ofNat 0, FloatVal.ofNat 0, FloatVal.ofNat 0, FloatVal.ofNat 0,
      FloatVal.ofNat 0, FloatVal.ofNat 0, FloatVal.ofNat 0, FloatVal.ofNat 0⟩
    rgbDistortion := ⟨FloatVal.ofNat 0, FloatVal.ofNat 0, FloatVal.ofNat 0, FloatVal.ofNat 0,
      FloatVal.ofNat 0, FloatVal.ofNat 0, FloatVal.ofNat 0, FloatVal.ofNat 0⟩ }

/-! ## Theorems -/

/-- The loop rewrites the first `n` samples with `truncateSample` and keeps the others. -/
theorem truncateLoop_eq (a b c d : Nat) (n : Nat) (xs : List Nat) :
    truncateLoop a b c d n xs = (xs.take n).map (truncateSample a b c d) ++ xs.drop n := by
  induction n generalizing xs with
  | zero => simp [truncateLoop]
  | succ n ih =>
    cases xs with
    | nil => simp [truncateLoop]
    | cons x xs => simp [truncateLoop, ih]

/-- On a well-formed frame the loop visits every sample of the grid. -/
theorem truncateDepth_data (frame : DepthFrame) (a b c d : Nat) (hwf : frame.WellFormed) :
    (truncateDepth frame a b c d).data = frame.data.map (truncateSample a b c d) := by
  obtain ⟨hlen, hlt, _⟩ := hwf
  have hn : (frame.width * frame.height) % 2 ^ 32 = frame.data.length := by
    rw [Nat.mod_eq_of_lt hlt, hlen]
  simp only [truncateDepth, truncateLoop_eq, hn]
  simp

/-- One sample after conditioning is inside the bounds or is one of the two defaults. -/
theorem truncateSample_range (a b c d v : Nat) :
    (a ≤ truncateSample a b c d v ∧ truncateSample a b c d v ≤ b) ∨
      truncateSample a b c d v = c ∨ truncateSample a b c d v = d := by
  unfold truncateSample
  by_cases h1 : v < a <;> by_cases h2 : v > b <;> by_cases h3 : c > b <;> simp [h1, h2, h3] <;> omega

/-- C1: after `truncateDepth` every sample of the output grid lies in
`[min_value, max_value]` or equals `min_default` or `max_default`. -/
theorem truncateDepth_in_range_or_default (frame : DepthFrame)
    (min_value max_value min_default max_default : Nat) (hwf : frame.WellFormed) :
    ∀ v ∈ (truncateDepth frame min_value max_value min_default max_default).data,
      (min_value ≤ v ∧ v ≤ max_value) ∨ v = min_default ∨ v = max_default := by
  intro v hv
  rw [truncateDepth_data frame _ _ _ _ hwf, List.mem_map] at hv
  obtain ⟨w, _, rfl⟩ := hv
  exact truncateSample_range _ _ _ _ w

/-- Witness of C1 on a 2x2 grid with bounds `[10, 20]` and defaults `0`, `0`. -/
theorem truncateDepth_in_range_or_default_witness :
    (DepthFrame.mk 2 2 [5, 10, 20, 25] (FloatVal.ofNat 1)).WellFormed ∧
      ∀ v ∈ (truncateDepth (DepthFrame.mk 2 2 [5, 10, 20, 25] (FloatVal.ofNat 1)) 10 20 0 0).data,
        (10 ≤ v ∧ v ≤ 20) ∨ v = 0 ∨ v = 0 :=
  ⟨⟨rfl, by norm_num, by decide⟩,
    truncateDepth_in_range_or_default (DepthFrame.mk 2 2 [5, 10, 20, 25] (FloatVal.ofNat 1)) 10 20 0 0
      ⟨rfl, by norm_num, by decide⟩⟩

/-- C2 as stated fails: with `min_value = 10`, `max_value = 20`, `min_default = 5` and
`max_default = 3` the sample `25` becomes `3` in the first pass and `5` in the second. -/
theorem truncateDepth_not_idempotent :
    truncateDepth (truncateDepth (DepthFrame.mk 1 1 [25] (FloatVal.ofNat 1)) 10 20 5 3) 10 20 5 3 ≠
      truncateDepth (DepthFrame.mk 1 1 [25] (FloatVal.ofNat 1)) 10 20 5 3 := by
  decide

/-- One sample: a second pass changes nothing when `max_default` is not re-mapped, that is when
the defaults are equal, or `max_default` is not below `min_value`, or `min_default` is itself
above `max_value`. -/
theorem truncateSample_idem (a b c d v : Nat) (h : c = d ∨ a ≤ d ∨ b < c) :
    truncateSample a b c d (truncateSample a b c d v) = truncateSample a b c d v := by
  unfold truncateSample
  simp only []
  split_ifs <;> omega

/-- The loop run twice over the same number of samples is the loop run once. -/
theorem truncateLoop_idem (a b c d : Nat) (h : c = d ∨ a ≤ d ∨ b < c) (n : Nat) (xs : List Nat) :
    truncateLoop a b c d n (truncateLoop a b c d n xs) = truncateLoop a b c d n xs := by
  induction n generalizing xs with
  | zero => simp [truncateLoop]
  | succ n ih =>
    cases xs with
    | nil => simp [truncateLoop]
    | cons x xs => simp [truncateLoop, ih, truncateSample_idem a b c d x h]

/-- C2 (amended): `truncateDepth` is idempotent whenever `min_default = max_default` (the main
loop passes `0` and `0`), or `min_value ≤ max_default`, or `max_value < min_default`: a second
application with the same arguments leaves the frame exactly as the first one left it. -/
theorem truncateDepth_idempotent_of_defaults (frame : DepthFrame)
    (min_value max_value min_default max_default : Nat)
    (h : min_default = max_default ∨ min_value ≤ max_default ∨ max_value < min_default) :
    truncateDepth (truncateDepth frame min_value max_value min_default max_default)
        min_value max_value min_default max_default =
      truncateDepth frame min_value max_value min_default max_default := by
  simp only [truncateDepth, truncateLoop_idem _ _ _ _ h]

/-- Witness of the amended C2 with the defaults of the main loop (`0`, `0`). -/
theorem truncateDepth_idempotent_of_defaults_witness :
    ((0 : Nat) = 0 ∨ 10 ≤ 0 ∨ 20 < 0) ∧
      truncateDepth (truncateDepth (DepthFrame.mk 2 2 [5, 10, 20, 25] (FloatVal.ofNat 1)) 10 20 0 0) 10 20 0 0 =
        truncateDepth (DepthFrame.mk 2 2 [5, 10, 20, 25] (FloatVal.ofNat 1)) 10 20 0 0 :=
  ⟨Or.inl rfl,
    truncateDepth_idempotent_of_defaults (DepthFrame.mk 2 2 [5, 10, 20, 25] (FloatVal.ofNat 1)) 10 20 0 0 (Or.inl rfl)⟩

/-- C3 as stated fails: the sample `5` is below `min_value = 10`, yet the output is not
`min_default = 30`, because `30` is above `max_value = 20` and the second test turns it into
`max_default = 0`. -/
theorem truncateDepth_below_min_not_min_default :
    ¬ ((5 : Nat) < 10 → (truncateDepth (DepthFrame.mk 1 1 [5] (FloatVal.ofNat 1)) 10 20 30 0).data[0]? = some 30) := by
  decide

/-- C3 (amended): `truncateDepth` acts pointwise on the whole grid and keeps its size. A sample
`v` in `[min_value, max_value]` is unchanged; a sample with `min_value ≤ v` and `v > max_value`
becomes `max_default`; a sample `v < min_value` becomes `min_default` when
`min_default ≤ max_value` and `max_default` when `min_default > max_value`. -/
theorem truncateDepth_pointwise (frame : DepthFrame)
    (min_value max_value min_default max_default : Nat) (hwf : frame.WellFormed) :
    (truncateDepth frame min_value max_value min_default max_default).data.length =
        frame.data.length ∧
      (truncateDepth frame min_value max_value min_default max_default).width = frame.width ∧
      (truncateDepth frame min_value max_value min_default max_default).height = frame.height ∧
      ∀ (i v : Nat), frame.data[i]? = some v →
        (min_value ≤ v ∧ v ≤ max_value →
          (truncateDepth frame min_value max_value min_default max_default).data[i]? = some v) ∧
        (min_value ≤ v ∧ max_value < v →
          (truncateDepth frame min_value max_value min_default max_default).data[i]? =
            some max_default) ∧
        (v < min_value ∧ min_default ≤ max_value →
          (truncateDepth frame min_value max_value min_default max_default).data[i]? =
            some min_default) ∧
        (v < min_value ∧ max_value < min_default →
          (truncateDepth frame min_value max_value min_default max_default).data[i]? =
            some max_default) := by
  rw [truncateDepth_data frame _ _ _ _ hwf]
  refine ⟨by simp, rfl, rfl, ?_⟩
  intro i v hv
  simp only [List.getElem?_map, hv, Option.map_some', Option.some.injEq, truncateSample]
  refine ⟨?_, ?_, ?_, ?_⟩ <;> intro h <;> split_ifs <;> omega

/-- Witness of the amended C3 on a 2x2 grid. -/
theorem truncateDepth_pointwise_witness :
    (DepthFrame.mk 2 2 [5, 10, 20, 25] (FloatVal.ofNat 1)).WellFormed ∧
      (truncateDepth (DepthFrame.mk 2 2 [5, 10, 20, 25] (FloatVal.ofNat 1)) 10 20 30 7).data = [7, 10, 20, 7] ∧
      (truncateDepth (DepthFrame.mk 2 2 [5, 10, 20, 25] (FloatVal.ofNat 1)) 10 20 30 7).data[0]? = some 7 :=
  ⟨⟨rfl, by norm_num, by decide⟩, by decide,
    ((truncateDepth_pointwise (DepthFrame.mk 2 2 [5, 10, 20, 25] (FloatVal.ofNat 1)) 10 20 30 7
      ⟨rfl, by norm_num, by decide⟩).2.2.2 0 5 rfl).2.2.2 (by decide)⟩

/-- The export loop prints one line for each of the first `n` records. -/
theorem writePoints_eq {P : Type} (line : P → String) (n : Nat) (xs : List P) :
    writePoints line n xs = (xs.take n).map line := by
  induction n generalizing xs with
  | zero => simp [writePoints]
  | succ n ih =>
    cases xs with
    | nil => simp [writePoints]
    | cons x xs => simp [writePoints, ih]

/-- A byte size below `2^32` divided by a positive record size fits `int` unchanged when the
record is at least two bytes long. -/
theorem toInt32_div (dataSize recordSize : Nat) (h : dataSize < 2 ^ 32) (hr : 2 ≤ recordSize) :
    toInt32 ((dataSize % 2 ^ 32) / recordSize) = ((dataSize / recordSize : Nat) : Int) := by
  rw [Nat.mod_eq_of_lt h]
  have h1 : dataSize / recordSize ≤ dataSize / 2 := Nat.div_le_div_left hr (by norm_num)
  have h2 : dataSize / recordSize < 2 ^ 31 := by omega
  have h3 : dataSize / recordSize % 2 ^ 32 = dataSize / recordSize := Nat.mod_eq_of_lt (by omega)
  simp only [toInt32, h3]
  rw [if_pos h2]

/-- The conversion `%d` of a non-negative `int` is the decimal numeral of the number. -/
theorem printf_d_natCast (n : Nat) : printf_d ((n : Nat) : Int) = toString n := rfl

/-- C4: in both export functions the count `N` of the header line `element vertex N` is the
byte size of the frame divided by the size of one record, and exactly `N` data lines follow
`end_header`. -/
theorem ply_vertex_count_eq_data_lines (canOpen : String → Bool) (fileName : String)
    (xyz : PointsFrame OBPoint) (rgb : PointsFrame OBColorPoint)
    (hopen : canOpen fileName = true)
    (hxyz : xyz.WellFormed sizeofOBPoint) (hrgb : rgb.WellFormed sizeofOBColorPoint) :
    (∃ dataLines : List String,
      savePointsToPly canOpen xyz fileName = SaveResult.saved
        (["ply", "format ascii 1.0",
          "element vertex " ++ toString (xyz.dataSize / sizeofOBPoint),
          "property float x", "property float y", "property float z",
          "end_header"] ++ dataLines) ∧
      dataLines.length = xyz.dataSize / sizeofOBPoint) ∧
    (∃ dataLines : List String,
      saveRGBPointsToPly canOpen rgb fileName = SaveResult.saved
        (["ply", "format ascii 1.0",
          "element vertex " ++ toString (rgb.dataSize / sizeofOBColorPoint),
          "property float x", "property float y", "property float z",
          "property uchar red", "property uchar green", "property uchar blue",
          "end_header"] ++ dataLines) ∧
      dataLines.length = rgb.dataSize / sizeofOBColorPoint) := by
  constructor
  · refine ⟨writePoints xyzLine (xyz.dataSize / sizeofOBPoint) xyz.data, ?_, ?_⟩
    · simp only [savePointsToPly, hopen, if_true,
        toInt32_div xyz.dataSize sizeofOBPoint hxyz.1 (by decide), printf_d_natCast,
        Int.toNat_ofNat]
    · rw [writePoints_eq, List.length_map, List.length_take, hxyz.2, Nat.min_self]
  · refine ⟨writePoints xyzrgbLine (rgb.dataSize / sizeofOBColorPoint) rgb.data, ?_, ?_⟩
    · simp only [saveRGBPointsToPly, hopen, if_true,
        toInt32_div rgb.dataSize sizeofOBColorPoint hrgb.1 (by decide), printf_d_natCast,
        Int.toNat_ofNat]
    · rw [writePoints_eq, List.length_map, List.length_take, hrgb.2, Nat.min_self]

/-- Witness of C4: a 2-point XYZ frame (with one stray byte after the records) and a 1-point
coloured frame. -/
theorem ply_vertex_count_eq_data_lines_witness :
    (∃ dataLines : List String,
      savePointsToPly (fun _ => true)
          ⟨25, [⟨FloatVal.ofNat 1, FloatVal.ofNat 2, FloatVal.ofNat 3⟩,
                ⟨FloatVal.finite true 5 (-1), FloatVal.ofNat 0, FloatVal.finite false 1 (-4)⟩]⟩
          "depth.ply" =
        SaveResult.saved
          (["ply", "format ascii 1.0", "element vertex " ++ toString (25 / sizeofOBPoint),
            "property float x", "property float y", "property float z",
            "end_header"] ++ dataLines) ∧
      dataLines.length = 25 / sizeofOBPoint) ∧
    (∃ dataLines : List String,
      saveRGBPointsToPly (fun _ => true)
          ⟨24, [⟨FloatVal.ofNat 1, FloatVal.ofNat 2, FloatVal.ofNat 3,
                 FloatVal.ofNat 255, FloatVal.ofNat 128, FloatVal.ofNat 0⟩]⟩
          "depth.ply" =
        SaveResult.saved
          (["ply", "format ascii 1.0", "element vertex " ++ toString (24 / sizeofOBColorPoint),
            "property float x", "property float y", "property float z",
            "property uchar red", "property uchar green", "property uchar blue",
            "end_header"] ++ dataLines) ∧
      dataLines.length = 24 / sizeofOBColorPoint) :=
  ply_vertex_count_eq_data_lines (fun _ => true) "depth.ply" _ _ rfl
    ⟨by norm_num, by decide⟩ ⟨by norm_num, by decide⟩

/-- C5: `savePointsToPly` writes the seven header lines with `N` the number of points of the
frame, then one line per point, in input order and none left out, holding `x`, `y`, `z` in
`%.3f` notation separated by single spaces; on the frame `(1,2,3), (4,5,6), (7,8,9), (0,0,0)`
this is `element vertex 4` and the four lines `1.000 2.000 3.000` to `0.000 0.000 0.000`. -/
theorem savePointsToPly_output (canOpen : String → Bool) (fileName : String)
    (frame : PointsFrame OBPoint) (hopen : canOpen fileName = true)
    (hwf : frame.WellFormed sizeofOBPoint) :
    savePointsToPly canOpen frame fileName = SaveResult.saved
        (["ply", "format ascii 1.0", "element vertex " ++ toString frame.data.length,
          "property float x", "property float y", "property float z", "end_header"] ++
          frame.data.map (fun point =>
            printf_3f point.x ++ " " ++ printf_3f point.y ++ " " ++ printf_3f point.z)) ∧
      savePointsToPly canOpen scenarioFrame fileName = SaveResult.saved
        ["ply", "format ascii 1.0", "element vertex 4",
          "property float x", "property float y", "property float z", "end_header",
          "1.000 2.000 3.000", "4.000 5.000 6.000", "7.000 8.000 9.000", "0.000 0.000 0.000"] := by
  constructor
  · simp only [savePointsToPly, hopen, if_true,
      toInt32_div frame.dataSize sizeofOBPoint hwf.1 (by decide), printf_d_natCast,
      Int.toNat_ofNat, writePoints_eq, ← hwf.2, List.take_length]
    rfl
  · simp only [savePointsToPly, hopen, if_true]
    decide

/-- Witness of C5: a 2-point frame with fractional and negative coordinates. -/
theorem savePointsToPly_output_witness :
    savePointsToPly (fun _ => true)
        ⟨24, [⟨FloatVal.ofNat 1, FloatVal.ofNat 2, FloatVal.ofNat 3⟩,
              ⟨FloatVal.finite true 5 (-1), FloatVal.ofNat 0, FloatVal.finite false 1 (-4)⟩]⟩
        "depth.ply" =
      SaveResult.saved
        ["ply", "format ascii 1.0", "element vertex 2",
          "property float x", "property float y", "property float z", "end_header",
          "1.000 2.000 3.000", "-2.500 0.000 0.062"] :=
  (savePointsToPly_output (fun _ => true) "depth.ply" _ rfl ⟨by norm_num, by decide⟩).1.trans
    (by decide)

/-! ### The fusion blocks -/

/-- A fusion block makes no call on the other engine. -/
theorem processKinfu_calls_other {In : Type} (K : Engine In) (e e' : EngineId) (winname : String)
    (par : APP_PARAMS_T) (b_pause_3dviz : Bool) (handle : Option K.Volume) (input : In)
    (h : e' ≠ e) :
    engineCalls e' (processKinfu K e winname par b_pause_3dviz handle input).2 = [] := by
  have h' : ¬ e = e' := fun h1 => h h1.symm
  unfold processKinfu get_and_show_point_clouds engineCalls
  cases handle with
  | none => simp
  | some v =>
    simp only []
    split_ifs <;> simp [List.filter_cons, Event.engine, h']

/-- A fusion block neither creates nor drops the engine. -/
theorem processKinfu_isSome {In : Type} (K : Engine In) (e : EngineId) (winname : String)
    (par : APP_PARAMS_T) (b_pause_3dviz : Bool) (handle : Option K.Volume) (input : In) :
    (processKinfu K e winname par b_pause_3dviz handle input).1.isSome = handle.isSome := by
  unfold processKinfu
  cases handle with
  | none => rfl
  | some v =>
    simp only []
    split_ifs <;> rfl

/-- The calls of a fusion block on its own engine: none without an engine, otherwise an
`update` first. -/
theorem processKinfu_calls_head {In : Type} (K : Engine In) (e : EngineId) (winname : String)
    (par : APP_PARAMS_T) (b_pause_3dviz : Bool) (handle : Option K.Volume) (input : In) :
    (handle = Option.none ∧
        (processKinfu K e winname par b_pause_3dviz handle input).2 = []) ∨
      ∃ v rest, handle = some v ∧
        engineCalls e (processKinfu K e winname par b_pause_3dviz handle input).2 =
          Event.update e (K.update v input).1 :: rest := by
  unfold processKinfu get_and_show_point_clouds engineCalls
  cases handle with
  | none => left; simp
  | some v =>
    right
    refine ⟨v, ?_⟩
    simp only []
    split_ifs with h1 <;> simp [List.filter_cons, Event.engine, h1]

/-- The fusion block on an engine whose `update` fails: the volume and the events. -/
theorem processKinfu_fail {In : Type} (K : Engine In) (e : EngineId) (winname : String)
    (par : APP_PARAMS_T) (b_pause_3dviz : Bool) (v : K.Volume) (input : In)
    (hfail : (K.update v input).1 = false) :
    processKinfu K e winname par b_pause_3dviz (some v) input =
      if par.b_kinfu_reset_in_icp_fail = true then
        (some (K.reset (K.update v input).2),
          [Event.update e false, Event.print "ICP fails.", Event.reset e])
      else
        (some (K.update v input).2, [Event.update e false, Event.print "ICP fails."]) := by
  simp [processKinfu, hfail]

/-- An `update` among the events of a fusion block is a call on the engine of the block, which
exists, and carries what `update` returned. -/
theorem processKinfu_update_mem {In : Type} (K : Engine In) (e e' : EngineId) (ok : Bool)
    (winname : String) (par : APP_PARAMS_T) (b_pause_3dviz : Bool) (handle : Option K.Volume)
    (input : In)
    (h : Event.update e' ok ∈ (processKinfu K e winname par b_pause_3dviz handle input).2) :
    e' = e ∧ ∃ v, handle = some v ∧ (K.update v input).1 = ok := by
  unfold processKinfu get_and_show_point_clouds at h
  cases handle with
  | none => simp at h
  | some v =>
    simp only [] at h
    split_ifs at h with h1 <;> simp at h <;>
      exact ⟨h.1, v, rfl, by rw [h.2]; simpa using h1⟩

/-! ### The cycle -/

/-- Membership in the calls on an engine. -/
theorem mem_engineCalls (e : EngineId) (ev : Event) (events : List Event) :
    ev ∈ engineCalls e events ↔ ev ∈ events ∧ ev.engine = some e := by
  simp [engineCalls, List.mem_filter]

/-- The calls on an engine in a concatenation of events. -/
theorem engineCalls_append (e : EngineId) (xs ys : List Event) :
    engineCalls e (xs ++ ys) = engineCalls e xs ++ engineCalls e ys := by
  simp [engineCalls, List.filter_append]

/-- Of the events of a cycle before the key is read, only those of the fusion blocks are engine
calls. -/
theorem engineCalls_bodyEvents (e : EngineId) (a b : Nat) (first pause : Bool) (c : Prop)
    [Decidable c] (xs ys : List Event) :
    engineCalls e
        ([Event.truncateDepth a b] ++ (if first then [Event.print "capture"] else []) ++ xs ++
          ys ++ ((if pause then [Event.spinOnce] else []) ++ [Event.imshow "Depth"] ++
            (if c then [Event.imshow "Color", Event.imshow "Fuse"] else []))) =
      engineCalls e xs ++ engineCalls e ys := by
  simp only [engineCalls_append]
  have h1 : engineCalls e [Event.truncateDepth a b] = [] := by simp [engineCalls, Event.engine]
  have h2 : engineCalls e (if first then [Event.print "capture"] else []) = [] := by
    split_ifs <;> simp [engineCalls, Event.engine]
  have h3 : engineCalls e (if pause then [Event.spinOnce] else []) = [] := by
    split_ifs <;> simp [engineCalls, Event.engine]
  have h4 : engineCalls e [Event.imshow "Depth"] = [] := by simp [engineCalls, Event.engine]
  have h5 : engineCalls e (if c then [Event.imshow "Color", Event.imshow "Fuse"] else []) = [] := by
    split_ifs <;> simp [engineCalls, Event.engine]
  simp [h1, h2, h3, h4, h5]

/-- The key commands add at most a `reset` to the calls on `kf`. -/
theorem keyCommands_calls_kf (K : Engine Mat) (Kc : Engine (Mat × Mat)) (par : APP_PARAMS_T)
    (inp : CycleInput) (frameSet : FrameSet) (kf : Option K.Volume) (kfc : Option Kc.Volume)
    (pause : Bool) (events : List Event) :
    engineCalls EngineId.kf (keyCommands K Kc par inp frameSet kf kfc pause events).events =
      engineCalls EngineId.kf events ++
        (if inp.key = 114 ∧ kf.isSome = true then [Event.reset EngineId.kf] else []) := by
  unfold keyCommands
  simp only []
  split <;> simp only [engineCalls_append] <;>
    by_cases hk : inp.key = 114 <;> cases kf <;> cases kfc <;>
      simp [hk, engineCalls, Event.engine]

/-- The key commands add at most a `reset` to the calls on `kfc`. -/
theorem keyCommands_calls_kfc (K : Engine Mat) (Kc : Engine (Mat × Mat)) (par : APP_PARAMS_T)
    (inp : CycleInput) (frameSet : FrameSet) (kf : Option K.Volume) (kfc : Option Kc.Volume)
    (pause : Bool) (events : List Event) :
    engineCalls EngineId.kfc (keyCommands K Kc par inp frameSet kf kfc pause events).events =
      engineCalls EngineId.kfc events ++
        (if inp.key = 114 ∧ kfc.isSome = true then [Event.reset EngineId.kfc] else []) := by
  unfold keyCommands
  simp only []
  split <;> simp only [engineCalls_append] <;>
    by_cases hk : inp.key = 114 <;> cases kf <;> cases kfc <;>
      simp [hk, engineCalls, Event.engine]

/-- The handles after the key commands: reset on `r`, untouched otherwise. -/
theorem keyCommands_state (K : Engine Mat) (Kc : Engine (Mat × Mat)) (par : APP_PARAMS_T)
    (inp : CycleInput) (frameSet : FrameSet) (kf : Option K.Volume) (kfc : Option Kc.Volume)
    (pause : Bool) (events : List Event) :
    (keyCommands K Kc par inp frameSet kf kfc pause events).state.kf =
        (if inp.key = 114 then kf.map K.reset else kf) ∧
      (keyCommands K Kc par inp frameSet kf kfc pause events).state.kfc =
        (if inp.key = 114 then kfc.map Kc.reset else kfc) := by
  unfold keyCommands
  simp only []
  split <;> exact ⟨rfl, rfl⟩

/-- The calls of a whole cycle body on `kf`: those of its fusion block, then a `reset` if the
key is `r` and the engine exists. -/
theorem cycleBody_calls_kf (K : Engine Mat) (Kc : Engine (Mat × Mat))
    (toU16 : Int → FloatVal → Nat) (par : APP_PARAMS_T) (st : LoopState K Kc) (inp : CycleInput)
    (frameSet : FrameSet) (depthFrame : DepthFrame) :
    engineCalls EngineId.kf (cycleBody K Kc toU16 par st inp frameSet depthFrame).events =
      engineCalls EngineId.kf
          (processKinfu K EngineId.kf "kinfu render" par st.b_pause_3dviz st.kf
            (convObFrame2CvMat (conditionDepth toU16 par depthFrame))).2 ++
        (if inp.key = 114 ∧ st.kf.isSome = true then [Event.reset EngineId.kf] else []) := by
  unfold cycleBody
  simp only []
  by_cases h27 : inp.key = 27
  · rw [if_pos h27]
    have h114 : ¬ (inp.key = 114 ∧ st.kf.isSome = true) := by omega
    have h114c : ¬ (inp.key = 114 ∧ st.kfc.isSome = true) := by omega
    simp only [engineCalls_bodyEvents, h114, h114c, if_false,
      processKinfu_calls_other Kc EngineId.kfc EngineId.kf _ _ _ _ _ (by decide), List.append_nil, List.nil_append]
  · rw [if_neg h27]
    simp only [keyCommands_calls_kf, engineCalls_bodyEvents, processKinfu_isSome,
      processKinfu_calls_other Kc EngineId.kfc EngineId.kf _ _ _ _ _ (by decide), List.append_nil, List.nil_append]

/-- The calls of a whole cycle body on `kfc`: those of its fusion block, then a `reset` if the
key is `r` and the engine exists. -/
theorem cycleBody_calls_kfc (K : Engine Mat) (Kc : Engine (Mat × Mat))
    (toU16 : Int → FloatVal → Nat) (par : APP_PARAMS_T) (st : LoopState K Kc) (inp : CycleInput)
    (frameSet : FrameSet) (depthFrame : DepthFrame) :
    engineCalls EngineId.kfc (cycleBody K Kc toU16 par st inp frameSet depthFrame).events =
      engineCalls EngineId.kfc
          (processKinfu Kc EngineId.kfc "colored_kinfu render" par st.b_pause_3dviz st.kfc
            (convObFrame2CvMat (conditionDepth toU16 par depthFrame), bgrMat par frameSet)).2 ++
        (if inp.key = 114 ∧ st.kfc.isSome = true then [Event.reset EngineId.kfc] else []) := by
  unfold cycleBody
  simp only []
  by_cases h27 : inp.key = 27
  · rw [if_pos h27]
    have h114 : ¬ (inp.key = 114 ∧ st.kf.isSome = true) := by omega
    have h114c : ¬ (inp.key = 114 ∧ st.kfc.isSome = true) := by omega
    simp only [engineCalls_bodyEvents, h114, h114c, if_false,
      processKinfu_calls_other K EngineId.kf EngineId.kfc _ _ _ _ _ (by decide), List.append_nil, List.nil_append]
  · rw [if_neg h27]
    simp only [keyCommands_calls_kfc, engineCalls_bodyEvents, processKinfu_isSome,
      processKinfu_calls_other K EngineId.kf EngineId.kfc _ _ _ _ _ (by decide), List.append_nil, List.nil_append]

/-- The handles after a whole cycle body: what the fusion blocks left, reset once more if the
key is `r`. -/
theorem cycleBody_state (K : Engine Mat) (Kc : Engine (Mat × Mat))
    (toU16 : Int → FloatVal → Nat) (par : APP_PARAMS_T) (st : LoopState K Kc) (inp : CycleInput)
    (frameSet : FrameSet) (depthFrame : DepthFrame) :
    (cycleBody K Kc toU16 par st inp frameSet depthFrame).state.kf =
        (if inp.key = 114 then
          (processKinfu K EngineId.kf "kinfu render" par st.b_pause_3dviz st.kf
            (convObFrame2CvMat (conditionDepth toU16 par depthFrame))).1.map K.reset
        else
          (processKinfu K EngineId.kf "kinfu render" par st.b_pause_3dviz st.kf
            (convObFrame2CvMat (conditionDepth toU16 par depthFrame))).1) ∧
      (cycleBody K Kc toU16 par st inp frameSet depthFrame).state.kfc =
        (if inp.key = 114 then
          (processKinfu Kc EngineId.kfc "colored_kinfu render" par st.b_pause_3dviz st.kfc
            (convObFrame2CvMat (conditionDepth toU16 par depthFrame),
              bgrMat par frameSet)).1.map Kc.reset
        else
          (processKinfu Kc EngineId.kfc "colored_kinfu render" par st.b_pause_3dviz st.kfc
            (convObFrame2CvMat (conditionDepth toU16 par depthFrame), bgrMat par frameSet)).1) := by
  unfold cycleBody
  simp only []
  by_cases h27 : inp.key = 27
  · simp [h27]
  · simp [h27, keyCommands_state]

/-- A cycle is either skipped (timeout or missing stream: the variables stay as they are, only
a diagnostic may be printed, the loop goes on) or it is the cycle body on a frame set that
holds a depth frame and, unless the mode is depth-only, a colour frame. -/
theorem cycle_skip_or_body (K : Engine Mat) (Kc : Engine (Mat × Mat))
    (toU16 : Int → FloatVal → Nat) (par : APP_PARAMS_T) (st : LoopState K Kc) (inp : CycleInput) :
    ((inp.frameSet = Option.none ∨
        ∃ fs, inp.frameSet = some fs ∧
          (fs.depthFrame = Option.none ∨ (par.kinfu_mode ≠ 1 ∧ fs.colorFrame = Option.none))) ∧
      (cycle K Kc toU16 par st inp).state = st ∧
      (cycle K Kc toU16 par st inp).control = Control.next ∧
      ∀ ev ∈ (cycle K Kc toU16 par st inp).events, ∃ msg, ev = Event.eprint msg) ∨
    ∃ fs d, inp.frameSet = some fs ∧ fs.depthFrame = some d ∧
      (par.kinfu_mode ≠ 1 → fs.colorFrame ≠ Option.none) ∧
      cycle K Kc toU16 par st inp = cycleBody K Kc toU16 par st inp fs d := by
  unfold cycle
  cases hfs : inp.frameSet with
  | none => left; simp
  | some fs =>
    dsimp only
    by_cases hc : par.kinfu_mode ≠ 1 ∧ fs.colorFrame = Option.none
    · left
      rw [if_pos hc]
      exact ⟨Or.inr ⟨fs, rfl, Or.inr hc⟩, rfl, rfl, by simp⟩
    · rw [if_neg hc]
      cases hd : fs.depthFrame with
      | none =>
        left
        exact ⟨Or.inr ⟨fs, rfl, Or.inl hd⟩, rfl, rfl, by simp⟩
      | some d =>
        right
        exact ⟨fs, d, rfl, hd, fun h1 h2 => hc ⟨h1, h2⟩, rfl⟩

/-- An `update` of `kf` among the events of a cycle: the cycle is a cycle body on a complete
frame set, `kf` exists, and the event carries what `update` returned on the conditioned depth
image. -/
theorem cycle_update_mem_kf (K : Engine Mat) (Kc : Engine (Mat × Mat))
    (toU16 : Int → FloatVal → Nat) (par : APP_PARAMS_T) (st : LoopState K Kc) (inp : CycleInput)
    (ok : Bool) (h : Event.update EngineId.kf ok ∈ (cycle K Kc toU16 par st inp).events) :
    ∃ fs d v, inp.frameSet = some fs ∧ fs.depthFrame = some d ∧
      (par.kinfu_mode ≠ 1 → fs.colorFrame ≠ Option.none) ∧
      cycle K Kc toU16 par st inp = cycleBody K Kc toU16 par st inp fs d ∧
      st.kf = some v ∧
      (K.update v (convObFrame2CvMat (conditionDepth toU16 par d))).1 = ok := by
  rcases cycle_skip_or_body K Kc toU16 par st inp with ⟨_, _, _, hev⟩ | ⟨fs, d, hfs, hd, hcol, heq⟩
  · obtain ⟨msg, hmsg⟩ := hev _ h
    cases hmsg
  · rw [heq] at h
    have hm : Event.update EngineId.kf ok ∈
        engineCalls EngineId.kf (cycleBody K Kc toU16 par st inp fs d).events :=
      (mem_engineCalls _ _ _).2 ⟨h, rfl⟩
    rw [cycleBody_calls_kf, List.mem_append] at hm
    rcases hm with hm | hm
    · obtain ⟨_, v, hv, hok⟩ := processKinfu_update_mem K _ _ _ _ _ _ _ _
        ((mem_engineCalls _ _ _).1 hm).1
      exact ⟨fs, d, v, hfs, hd, hcol, heq, hv, hok⟩
    · split_ifs at hm <;> simp at hm

/-- An `update` of `kfc` among the events of a cycle: the cycle is a cycle body on a complete
frame set, `kfc` exists, and the event carries what `update` returned on the conditioned depth
image and the colour image. -/
theorem cycle_update_mem_kfc (K : Engine Mat) (Kc : Engine (Mat × Mat))
    (toU16 : Int → FloatVal → Nat) (par : APP_PARAMS_T) (st : LoopState K Kc) (inp : CycleInput)
    (ok : Bool) (h : Event.update EngineId.kfc ok ∈ (cycle K Kc toU16 par st inp).events) :
    ∃ fs d v, inp.frameSet = some fs ∧ fs.depthFrame = some d ∧
      (par.kinfu_mode ≠ 1 → fs.colorFrame ≠ Option.none) ∧
      cycle K Kc toU16 par st inp = cycleBody K Kc toU16 par st inp fs d ∧
      st.kfc = some v ∧
      (Kc.update v (convObFrame2CvMat (conditionDepth toU16 par d), bgrMat par fs)).1 = ok := by
  rcases cycle_skip_or_body K Kc toU16 par st inp with ⟨_, _, _, hev⟩ | ⟨fs, d, hfs, hd, hcol, heq⟩
  · obtain ⟨msg, hmsg⟩ := hev _ h
    cases hmsg
  · rw [heq] at h
    have hm : Event.update EngineId.kfc ok ∈
        engineCalls EngineId.kfc (cycleBody K Kc toU16 par st inp fs d).events :=
      (mem_engineCalls _ _ _).2 ⟨h, rfl⟩
    rw [cycleBody_calls_kfc, List.mem_append] at hm
    rcases hm with hm | hm
    · obtain ⟨_, v, hv, hok⟩ := processKinfu_update_mem Kc _ _ _ _ _ _ _ _
        ((mem_engineCalls _ _ _).1 hm).1
      exact ⟨fs, d, v, hfs, hd, hcol, heq, hv, hok⟩
    · split_ifs at hm <;> simp at hm

/-- Events that are all diagnostics hold no engine call. -/
theorem engineCalls_of_eprint (e : EngineId) (events : List Event)
    (h : ∀ ev ∈ events, ∃ msg, ev = Event.eprint msg) : engineCalls e events = [] := by
  unfold engineCalls
  rw [List.filter_eq_nil_iff]
  intro ev hev
  obtain ⟨msg, rfl⟩ := h ev hev
  simp [Event.engine]

/-- What any cycle does with `kf`: either it makes no call on it and leaves its volume as it
is, or its first call on it is `update`, run on the volume the cycle started with. -/
theorem cycle_calls_head_kf (K : Engine Mat) (Kc : Engine (Mat × Mat))
    (toU16 : Int → FloatVal → Nat) (par : APP_PARAMS_T) (st : LoopState K Kc) (inp : CycleInput) :
    (engineCalls EngineId.kf (cycle K Kc toU16 par st inp).events = [] ∧
        (cycle K Kc toU16 par st inp).state.kf = st.kf) ∨
      ∃ v input rest, st.kf = some v ∧
        engineCalls EngineId.kf (cycle K Kc toU16 par st inp).events =
          Event.update EngineId.kf (K.update v input).1 :: rest := by
  rcases cycle_skip_or_body K Kc toU16 par st inp with ⟨_, h1, _, h3⟩ | ⟨fs, d, _, _, _, heq⟩
  · exact Or.inl ⟨engineCalls_of_eprint _ _ h3, by rw [h1]⟩
  · rw [heq, cycleBody_calls_kf, (cycleBody_state K Kc toU16 par st inp fs d).1]
    rcases processKinfu_calls_head K EngineId.kf "kinfu render" par st.b_pause_3dviz st.kf
        (convObFrame2CvMat (conditionDepth toU16 par d)) with ⟨hn, _⟩ | ⟨v, rest, hv, hc⟩
    · left
      rw [hn]
      simp [processKinfu, engineCalls]
    · right
      exact ⟨v, _, _, hv, by rw [hc]; rfl⟩

/-- What any cycle does with `kfc`: either it makes no call on it and leaves its volume as it
is, or its first call on it is `update`, run on the volume the cycle started with. -/
theorem cycle_calls_head_kfc (K : Engine Mat) (Kc : Engine (Mat × Mat))
    (toU16 : Int → FloatVal → Nat) (par : APP_PARAMS_T) (st : LoopState K Kc) (inp : CycleInput) :
    (engineCalls EngineId.kfc (cycle K Kc toU16 par st inp).events = [] ∧
        (cycle K Kc toU16 par st inp).state.kfc = st.kfc) ∨
      ∃ v input rest, st.kfc = some v ∧
        engineCalls EngineId.kfc (cycle K Kc toU16 par st inp).events =
          Event.update EngineId.kfc (Kc.update v input).1 :: rest := by
  rcases cycle_skip_or_body K Kc toU16 par st inp with ⟨_, h1, _, h3⟩ | ⟨fs, d, _, _, _, heq⟩
  · exact Or.inl ⟨engineCalls_of_eprint _ _ h3, by rw [h1]⟩
  · rw [heq, cycleBody_calls_kfc, (cycleBody_state K Kc toU16 par st inp fs d).2]
    rcases processKinfu_calls_head Kc EngineId.kfc "colored_kinfu render" par st.b_pause_3dviz
        st.kfc (convObFrame2CvMat (conditionDepth toU16 par d), bgrMat par fs) with
      ⟨hn, _⟩ | ⟨v, rest, hv, hc⟩
    · left
      rw [hn]
      simp [processKinfu, engineCalls]
    · right
      exact ⟨v, _, _, hv, by rw [hc]; rfl⟩

/-- C7: with `b_kinfu_reset_in_icp_fail` set, in every cycle in which `update` of an engine
(`kf` or `kfc`) returns failure, the calls of the cycle on that engine are the failed `update`
followed by `reset` (and by a second `reset` if the key is `r`) and nothing else; the volume
the engine holds at the end of the cycle is the one `reset` returned; and whatever the next
cycle is, it either leaves the engine alone with that volume or starts its calls on the engine
with an `update` run on that volume. -/
theorem failed_update_then_reset (K : Engine Mat) (Kc : Engine (Mat × Mat))
    (toU16 : Int → FloatVal → Nat) (par : APP_PARAMS_T) (st : LoopState K Kc) (inp : CycleInput)
    (hflag : par.b_kinfu_reset_in_icp_fail = true) :
    (Event.update EngineId.kf false ∈ (cycle K Kc toU16 par st inp).events →
      (engineCalls EngineId.kf (cycle K Kc toU16 par st inp).events =
          [Event.update EngineId.kf false, Event.reset EngineId.kf] ∨
        engineCalls EngineId.kf (cycle K Kc toU16 par st inp).events =
          [Event.update EngineId.kf false, Event.reset EngineId.kf, Event.reset EngineId.kf]) ∧
      ∃ w, (cycle K Kc toU16 par st inp).state.kf = some (K.reset w) ∧
        ∀ next : CycleInput,
          (engineCalls EngineId.kf
                (cycle K Kc toU16 par (cycle K Kc toU16 par st inp).state next).events = [] ∧
              (cycle K Kc toU16 par (cycle K Kc toU16 par st inp).state next).state.kf =
                some (K.reset w)) ∨
            ∃ input rest,
              engineCalls EngineId.kf
                  (cycle K Kc toU16 par (cycle K Kc toU16 par st inp).state next).events =
                Event.update EngineId.kf (K.update (K.reset w) input).1 :: rest) ∧
    (Event.update EngineId.kfc false ∈ (cycle K Kc toU16 par st inp).events →
      (engineCalls EngineId.kfc (cycle K Kc toU16 par st inp).events =
          [Event.update EngineId.kfc false, Event.reset EngineId.kfc] ∨
        engineCalls EngineId.kfc (cycle K Kc toU16 par st inp).events =
          [Event.update EngineId.kfc false, Event.reset EngineId.kfc,
            Event.reset EngineId.kfc]) ∧
      ∃ w, (cycle K Kc toU16 par st inp).state.kfc = some (Kc.reset w) ∧
        ∀ next : CycleInput,
          (engineCalls EngineId.kfc
                (cycle K Kc toU16 par (cycle K Kc toU16 par st inp).state next).events = [] ∧
              (cycle K Kc toU16 par (cycle K Kc toU16 par st inp).state next).state.kfc =
                some (Kc.reset w)) ∨
            ∃ input rest,
              engineCalls EngineId.kfc
                  (cycle K Kc toU16 par (cycle K Kc toU16 par st inp).state next).events =
                Event.update EngineId.kfc (Kc.update (Kc.reset w) input).1 :: rest) := by
  constructor
  · intro h
    obtain ⟨fs, d, v, _, _, _, heq, hv, hfail⟩ := cycle_update_mem_kf K Kc toU16 par st inp false h
    have hp := processKinfu_fail K EngineId.kf "kinfu render" par st.b_pause_3dviz v _ hfail
    rw [if_pos hflag] at hp
    have hA : (engineCalls EngineId.kf (cycle K Kc toU16 par st inp).events =
          [Event.update EngineId.kf false, Event.reset EngineId.kf] ∨
        engineCalls EngineId.kf (cycle K Kc toU16 par st inp).events =
          [Event.update EngineId.kf false, Event.reset EngineId.kf, Event.reset EngineId.kf]) ∧
        ∃ w, (cycle K Kc toU16 par st inp).state.kf = some (K.reset w) := by
      rw [heq, cycleBody_calls_kf, (cycleBody_state K Kc toU16 par st inp fs d).1, hv, hp]
      by_cases hk : inp.key = 114
      · exact ⟨Or.inr (by simp [hk, engineCalls, Event.engine]), ⟨_, by simp [hk]; rfl⟩⟩
      · exact ⟨Or.inl (by simp [hk, engineCalls, Event.engine]), ⟨_, by simp [hk]; rfl⟩⟩
    obtain ⟨hcalls, w, hw⟩ := hA
    refine ⟨hcalls, w, hw, fun next => ?_⟩
    rcases cycle_calls_head_kf K Kc toU16 par (cycle K Kc toU16 par st inp).state next with
      ⟨h1, h2⟩ | ⟨v2, input, rest, hv2, hc⟩
    · exact Or.inl ⟨h1, h2.trans hw⟩
    · rw [hw] at hv2
      cases hv2
      exact Or.inr ⟨input, rest, hc⟩
  · intro h
    obtain ⟨fs, d, v, _, _, _, heq, hv, hfail⟩ := cycle_update_mem_kfc K Kc toU16 par st inp false h
    have hp := processKinfu_fail Kc EngineId.kfc "colored_kinfu render" par st.b_pause_3dviz v _
      hfail
    rw [if_pos hflag] at hp
    have hA : (engineCalls EngineId.kfc (cycle K Kc toU16 par st inp).events =
          [Event.update EngineId.kfc false, Event.reset EngineId.kfc] ∨
        engineCalls EngineId.kfc (cycle K Kc toU16 par st inp).events =
          [Event.update EngineId.kfc false, Event.reset EngineId.kfc,
            Event.reset EngineId.kfc]) ∧
        ∃ w, (cycle K Kc toU16 par st inp).state.kfc = some (Kc.reset w) := by
      rw [heq, cycleBody_calls_kfc, (cycleBody_state K Kc toU16 par st inp fs d).2, hv, hp]
      by_cases hk : inp.key = 114
      · exact ⟨Or.inr (by simp [hk, engineCalls, Event.engine]), ⟨_, by simp [hk]; rfl⟩⟩
      · exact ⟨Or.inl (by simp [hk, engineCalls, Event.engine]), ⟨_, by simp [hk]; rfl⟩⟩
    obtain ⟨hcalls, w, hw⟩ := hA
    refine ⟨hcalls, w, hw, fun next => ?_⟩
    rcases cycle_calls_head_kfc K Kc toU16 par (cycle K Kc toU16 par st inp).state next with
      ⟨h1, h2⟩ | ⟨v2, input, rest, hv2, hc⟩
    · exact Or.inl ⟨h1, h2.trans hw⟩
    · rw [hw] at hv2
      cases hv2
      exact Or.inr ⟨input, rest, hc⟩

/-- Witness of C7: depth-only mode with `-kr`, a frame without any valid sample makes `update`
fail; the calls on `kf` are `update`, `reset`, and the volume is the one `reset` returned. -/
theorem failed_update_then_reset_witness :
    (engineCalls EngineId.kf
          (cycle sumEngine sumColoredEngine toU16Unit (parOf 1 true)
            { kf := some [600], kfc := Option.none, b_first := false, b_pause_3dviz := false }
            (sampleInput [0, 0, 0, 0] (-1))).events =
        [Event.update EngineId.kf false, Event.reset EngineId.kf] ∨
      engineCalls EngineId.kf
          (cycle sumEngine sumColoredEngine toU16Unit (parOf 1 true)
            { kf := some [600], kfc := Option.none, b_first := false, b_pause_3dviz := false }
            (sampleInput [0, 0, 0, 0] (-1))).events =
        [Event.update EngineId.kf false, Event.reset EngineId.kf, Event.reset EngineId.kf]) ∧
    (cycle sumEngine sumColoredEngine toU16Unit (parOf 1 true)
        { kf := some [600], kfc := Option.none, b_first := false, b_pause_3dviz := false }
        (sampleInput [0, 0, 0, 0] (-1))).state.kf = some [] :=
  ⟨((failed_update_then_reset sumEngine sumColoredEngine toU16Unit (parOf 1 true)
      { kf := some [600], kfc := Option.none, b_first := false, b_pause_3dviz := false }
      (sampleInput [0, 0, 0, 0] (-1)) rfl).1 (by decide)).1,
    by decide⟩

/-- C8: with `b_kinfu_reset_in_icp_fail` off and a key other than `r`, in every cycle in which
`update` of an engine (`kf` or `kfc`) returns failure, that `update` is the only call of the
cycle on the engine (no `reset`, no `render`, no `getCloud`), so the volume at the end of the
cycle is the one the failed `update` left. For an engine whose failed `update` leaves the
volume as it was, this is the volume from before the call, and whatever the next cycle is, it
either leaves the engine alone with that volume or starts its calls on the engine with an
`update` run on that volume. -/
theorem failed_update_keeps_volume (K : Engine Mat) (Kc : Engine (Mat × Mat))
    (toU16 : Int → FloatVal → Nat) (par : APP_PARAMS_T) (st : LoopState K Kc) (inp : CycleInput)
    (hflag : par.b_kinfu_reset_in_icp_fail = false) (hkey : inp.key ≠ 114) :
    (Event.update EngineId.kf false ∈ (cycle K Kc toU16 par st inp).events →
      engineCalls EngineId.kf (cycle K Kc toU16 par st inp).events =
        [Event.update EngineId.kf false] ∧
      (∃ v input, st.kf = some v ∧ (K.update v input).1 = false ∧
        (cycle K Kc toU16 par st inp).state.kf = some (K.update v input).2) ∧
      ((∀ v input, (K.update v input).1 = false → (K.update v input).2 = v) →
        (cycle K Kc toU16 par st inp).state.kf = st.kf ∧
        ∀ next : CycleInput,
          (engineCalls EngineId.kf
                (cycle K Kc toU16 par (cycle K Kc toU16 par st inp).state next).events = [] ∧
              (cycle K Kc toU16 par (cycle K Kc toU16 par st inp).state next).state.kf =
                st.kf) ∨
            ∃ v input rest, st.kf = some v ∧
              engineCalls EngineId.kf
                  (cycle K Kc toU16 par (cycle K Kc toU16 par st inp).state next).events =
                Event.update EngineId.kf (K.update v input).1 :: rest)) ∧
    (Event.update EngineId.kfc false ∈ (cycle K Kc toU16 par st inp).events →
      engineCalls EngineId.kfc (cycle K Kc toU16 par st inp).events =
        [Event.update EngineId.kfc false] ∧
      (∃ v input, st.kfc = some v ∧ (Kc.update v input).1 = false ∧
        (cycle K Kc toU16 par st inp).state.kfc = some (Kc.update v input).2) ∧
      ((∀ v input, (Kc.update v input).1 = false → (Kc.update v input).2 = v) →
        (cycle K Kc toU16 par st inp).state.kfc = st.kfc ∧
        ∀ next : CycleInput,
          (engineCalls EngineId.kfc
                (cycle K Kc toU16 par (cycle K Kc toU16 par st inp).state next).events = [] ∧
              (cycle K Kc toU16 par (cycle K Kc toU16 par st inp).state next).state.kfc =
                st.kfc) ∨
            ∃ v input rest, st.kfc = some v ∧
              engineCalls EngineId.kfc
                  (cycle K Kc toU16 par (cycle K Kc toU16 par st inp).state next).events =
                Event.update EngineId.kfc (Kc.update v input).1 :: rest)) := by
  have hflag' : ¬ par.b_kinfu_reset_in_icp_fail = true := by simp [hflag]
  constructor
  · intro h
    obtain ⟨fs, d, v, _, _, _, heq, hv, hfail⟩ := cycle_update_mem_kf K Kc toU16 par st inp false h
    have hp := processKinfu_fail K EngineId.kf "kinfu render" par st.b_pause_3dviz v _ hfail
    rw [if_neg hflag'] at hp
    have hcalls : engineCalls EngineId.kf (cycle K Kc toU16 par st inp).events =
        [Event.update EngineId.kf false] := by
      rw [heq, cycleBody_calls_kf, hv, hp]
      simp [hkey, engineCalls, Event.engine]
    have hstate : (cycle K Kc toU16 par st inp).state.kf =
        some (K.update v (convObFrame2CvMat (conditionDepth toU16 par d))).2 := by
      rw [heq, (cycleBody_state K Kc toU16 par st inp fs d).1, hv, hp]
      simp [hkey]
    refine ⟨hcalls, ⟨v, _, hv, hfail, hstate⟩, fun hK => ?_⟩
    have hsame : (cycle K Kc toU16 par st inp).state.kf = st.kf := by
      rw [hstate, hK _ _ hfail, hv]
    refine ⟨hsame, fun next => ?_⟩
    rcases cycle_calls_head_kf K Kc toU16 par (cycle K Kc toU16 par st inp).state next with
      ⟨h1, h2⟩ | ⟨v2, input, rest, hv2, hc⟩
    · exact Or.inl ⟨h1, h2.trans hsame⟩
    · exact Or.inr ⟨v2, input, rest, hsame ▸ hv2, hc⟩
  · intro h
    obtain ⟨fs, d, v, _, _, _, heq, hv, hfail⟩ := cycle_update_mem_kfc K Kc toU16 par st inp false h
    have hp := processKinfu_fail Kc EngineId.kfc "colored_kinfu render" par st.b_pause_3dviz v _
      hfail
    rw [if_neg hflag'] at hp
    have hcalls : engineCalls EngineId.kfc (cycle K Kc toU16 par st inp).events =
        [Event.update EngineId.kfc false] := by
      rw [heq, cycleBody_calls_kfc, hv, hp]
      simp [hkey, engineCalls, Event.engine]
    have hstate : (cycle K Kc toU16 par st inp).state.kfc =
        some (Kc.update v
          (convObFrame2CvMat (conditionDepth toU16 par d), bgrMat par fs)).2 := by
      rw [heq, (cycleBody_state K Kc toU16 par st inp fs d).2, hv, hp]
      simp [hkey]
    refine ⟨hcalls, ⟨v, _, hv, hfail, hstate⟩, fun hK => ?_⟩
    have hsame : (cycle K Kc toU16 par st inp).state.kfc = st.kfc := by
      rw [hstate, hK _ _ hfail, hv]
    refine ⟨hsame, fun next => ?_⟩
    rcases cycle_calls_head_kfc K Kc toU16 par (cycle K Kc toU16 par st inp).state next with
      ⟨h1, h2⟩ | ⟨v2, input, rest, hv2, hc⟩
    · exact Or.inl ⟨h1, h2.trans hsame⟩
    · exact Or.inr ⟨v2, input, rest, hsame ▸ hv2, hc⟩

/-- Witness of C8: coloured mode without `-kr`, the key `s`; `update` fails on a frame without
any valid sample and the volume `[(600, 7)]` is still there at the end of the cycle. -/
theorem failed_update_keeps_volume_witness :
    (cycle sumEngine sumColoredEngine toU16Unit (parOf 2 false)
        { kf := Option.none, kfc := some [(600, 7)], b_first := false, b_pause_3dviz := false }
        (sampleInput [0, 0, 0, 0] 115)).state.kfc = some [(600, 7)] :=
  (((failed_update_keeps_volume sumEngine sumColoredEngine toU16Unit (parOf 2 false)
    { kf := Option.none, kfc := some [(600, 7)], b_first := false, b_pause_3dviz := false }
    (sampleInput [0, 0, 0, 0] 115) rfl (by decide)).2 (by decide)).2.2
    (by
      intro v input h
      by_cases h0 : input.1.data.sum = 0
      · simp [sumColoredEngine, h0]
      · simp [sumColoredEngine, h0] at h)).1

/-- A cycle on a timeout does nothing at all. -/
theorem cycle_timeout (K : Engine Mat) (Kc : Engine (Mat × Mat))
    (toU16 : Int → FloatVal → Nat) (par : APP_PARAMS_T) (st : LoopState K Kc) (inp : CycleInput)
    (h : inp.frameSet = Option.none) :
    cycle K Kc toU16 par st inp = { state := st, events := [], control := Control.next } := by
  unfold cycle
  rw [h]

/-- Cycles that time out, at the head of a script, leave the run as it is without them. -/
theorem run_timeouts (K : Engine Mat) (Kc : Engine (Mat × Mat))
    (toU16 : Int → FloatVal → Nat) (par : APP_PARAMS_T) (st : LoopState K Kc)
    (timeouts rest : List CycleInput) (h : ∀ inp ∈ timeouts, inp.frameSet = Option.none) :
    run K Kc toU16 par (timeouts ++ rest) st = run K Kc toU16 par rest st := by
  induction timeouts with
  | nil => rfl
  | cons inp tl ih =>
    have h1 := cycle_timeout K Kc toU16 par st inp (h inp (List.mem_cons_self _ _))
    have h2 := ih (fun x hx => h x (List.mem_cons_of_mem _ hx))
    rw [List.cons_append, run, h1]
    dsimp only
    rw [List.nil_append, h2]

/-- C9: `update` is called in a cycle only if `waitForFrames` returned a frame set that holds a
depth frame and, unless `kinfu_mode` is 1, a colour frame. On a timeout or a missing required
stream the cycle changes neither the engines nor the other loop variables, produces no event
but (for a missing stream) a diagnostic on `stderr` (so no truncation, no `update`, no
`render`), and ends in `next`; on a timeout there is no event at all. Any number of timeouts in
a row leaves the run exactly as it is without them. -/
theorem update_only_on_complete_frame_set (K : Engine Mat) (Kc : Engine (Mat × Mat))
    (toU16 : Int → FloatVal → Nat) (par : APP_PARAMS_T) (st : LoopState K Kc) :
    (∀ (inp : CycleInput) (e : EngineId) (ok : Bool),
      Event.update e ok ∈ (cycle K Kc toU16 par st inp).events →
        ∃ fs d, inp.frameSet = some fs ∧ fs.depthFrame = some d ∧
          (par.kinfu_mode ≠ 1 → ∃ c, fs.colorFrame = some c)) ∧
    (∀ inp : CycleInput,
      (inp.frameSet = Option.none ∨
        ∃ fs, inp.frameSet = some fs ∧
          (fs.depthFrame = Option.none ∨ (par.kinfu_mode ≠ 1 ∧ fs.colorFrame = Option.none))) →
      (cycle K Kc toU16 par st inp).state = st ∧
        (cycle K Kc toU16 par st inp).control = Control.next ∧
        ∀ ev ∈ (cycle K Kc toU16 par st inp).events, ∃ msg, ev = Event.eprint msg) ∧
    (∀ inp : CycleInput, inp.frameSet = Option.none →
      (cycle K Kc toU16 par st inp).events = []) ∧
    (∀ (n : Nat) (inp : CycleInput) (rest : List CycleInput), inp.frameSet = Option.none →
      run K Kc toU16 par (List.replicate n inp ++ rest) st = run K Kc toU16 par rest st) := by
  refine ⟨?_, ?_, ?_, ?_⟩
  · intro inp e ok h
    have key : ∃ fs d, inp.frameSet = some fs ∧ fs.depthFrame = some d ∧
        (par.kinfu_mode ≠ 1 → fs.colorFrame ≠ Option.none) := by
      cases e with
      | kf =>
        obtain ⟨fs, d, _, h1, h2, h3, _⟩ := cycle_update_mem_kf K Kc toU16 par st inp ok h
        exact ⟨fs, d, h1, h2, h3⟩
      | kfc =>
        obtain ⟨fs, d, _, h1, h2, h3, _⟩ := cycle_update_mem_kfc K Kc toU16 par st inp ok h
        exact ⟨fs, d, h1, h2, h3⟩
    obtain ⟨fs, d, h1, h2, h3⟩ := key
    exact ⟨fs, d, h1, h2, fun hm => Option.ne_none_iff_exists'.1 (h3 hm)⟩
  · intro inp hskip
    rcases cycle_skip_or_body K Kc toU16 par st inp with ⟨_, h1, h2, h3⟩ | ⟨fs, d, hfs, hd, hcol, _⟩
    · exact ⟨h1, h2, h3⟩
    · exfalso
      rcases hskip with h0 | ⟨fs', hfs', h0 | ⟨hm, hc⟩⟩
      · rw [hfs] at h0; cases h0
      · rw [hfs] at hfs'; cases hfs'
        rw [hd] at h0; cases h0
      · rw [hfs] at hfs'; cases hfs'
        exact hcol hm hc
  · intro inp h
    rw [cycle_timeout K Kc toU16 par st inp h]
  · intro n inp rest h
    exact run_timeouts K Kc toU16 par st _ rest (fun x hx => by rw [List.eq_of_mem_replicate hx]; exact h)

/-- Witness of C9: three timeouts in a row before a cycle with a frame; the run is the run of
that cycle alone, and a colour-less frame set in coloured mode is skipped. -/
theorem update_only_on_complete_frame_set_witness :
    run sumEngine sumColoredEngine toU16Unit (parOf 2 false)
        (List.replicate 3 timeoutInput ++ [sampleInput [600, 600, 600, 600] (-1)])
        (prepareKinfu sumEngine sumColoredEngine (parOf 2 false) () ()) =
      run sumEngine sumColoredEngine toU16Unit (parOf 2 false)
        [sampleInput [600, 600, 600, 600] (-1)]
        (prepareKinfu sumEngine sumColoredEngine (parOf 2 false) () ()) ∧
    (cycle sumEngine sumColoredEngine toU16Unit (parOf 2 false)
        (prepareKinfu sumEngine sumColoredEngine (parOf 2 false) () ())
        { frameSet := some { sampleFrameSet [600, 600, 600, 600] with colorFrame := Option.none }
          key := -1
          canOpen := fun _ => true }).control = Control.next :=
  ⟨(update_only_on_complete_frame_set sumEngine sumColoredEngine toU16Unit (parOf 2 false)
      (prepareKinfu sumEngine sumColoredEngine (parOf 2 false) () ())).2.2.2 3 timeoutInput
      [sampleInput [600, 600, 600, 600] (-1)] rfl,
    ((update_only_on_complete_frame_set sumEngine sumColoredEngine toU16Unit (parOf 2 false)
      (prepareKinfu sumEngine sumColoredEngine (parOf 2 false) () ())).2.1
      { frameSet := some { sampleFrameSet [600, 600, 600, 600] with colorFrame := Option.none }
        key := -1
        canOpen := fun _ => true }
      (Or.inr ⟨_, rfl, Or.inr ⟨by decide, rfl⟩⟩)).2.1⟩

/-- A cycle neither creates nor destroys an engine. -/
theorem cycle_isSome (K : Engine Mat) (Kc : Engine (Mat × Mat))
    (toU16 : Int → FloatVal → Nat) (par : APP_PARAMS_T) (st : LoopState K Kc) (inp : CycleInput) :
    (cycle K Kc toU16 par st inp).state.kf.isSome = st.kf.isSome ∧
      (cycle K Kc toU16 par st inp).state.kfc.isSome = st.kfc.isSome := by
  rcases cycle_skip_or_body K Kc toU16 par st inp with ⟨_, h1, _, _⟩ | ⟨fs, d, _, _, _, heq⟩
  · rw [h1]; exact ⟨rfl, rfl⟩
  · rw [heq, (cycleBody_state K Kc toU16 par st inp fs d).1,
      (cycleBody_state K Kc toU16 par st inp fs d).2]
    constructor <;> split_ifs <;> simp [processKinfu_isSome]

/-- A run neither creates nor destroys an engine. -/
theorem run_isSome (K : Engine Mat) (Kc : Engine (Mat × Mat))
    (toU16 : Int → FloatVal → Nat) (par : APP_PARAMS_T) (inputs : List CycleInput)
    (st : LoopState K Kc) :
    (run K Kc toU16 par inputs st).state.kf.isSome = st.kf.isSome ∧
      (run K Kc toU16 par inputs st).state.kfc.isSome = st.kfc.isSome := by
  induction inputs generalizing st with
  | nil => exact ⟨rfl, rfl⟩
  | cons inp rest ih =>
    have hc := cycle_isSome K Kc toU16 par st inp
    have hr := ih (cycle K Kc toU16 par st inp).state
    unfold run
    dsimp only
    split
    · exact ⟨hr.1.trans hc.1, hr.2.trans hc.2⟩
    · exact hc
    · exact hc

/-- C10: at most one fusion engine exists in a session. `kf` is created exactly when
`kinfu_mode = 1` and `kfc` exactly when `kinfu_mode = 2`, so never both; a cycle of the loop
leaves each handle existing or missing as it found it; and in no cycle of a run that starts
from the state set up at start-up are `update` of `kf` and `update` of `kfc` both called. -/
theorem at_most_one_engine (K : Engine Mat) (Kc : Engine (Mat × Mat))
    (toU16 : Int → FloatVal → Nat) (par : APP_PARAMS_T) (kinfuParams : K.Params)
    (coloredParams : Kc.Params) :
    (((prepareKinfu K Kc par kinfuParams coloredParams).kf.isSome = true ↔ par.kinfu_mode = 1) ∧
      ((prepareKinfu K Kc par kinfuParams coloredParams).kfc.isSome = true ↔
        par.kinfu_mode = 2) ∧
      ¬ ((prepareKinfu K Kc par kinfuParams coloredParams).kf.isSome = true ∧
        (prepareKinfu K Kc par kinfuParams coloredParams).kfc.isSome = true)) ∧
    (∀ (st : LoopState K Kc) (inp : CycleInput),
      (cycle K Kc toU16 par st inp).state.kf.isSome = st.kf.isSome ∧
        (cycle K Kc toU16 par st inp).state.kfc.isSome = st.kfc.isSome) ∧
    (∀ (inputs : List CycleInput) (inp : CycleInput),
      ¬ ((∃ ok, Event.update EngineId.kf ok ∈
            (cycle K Kc toU16 par
              (run K Kc toU16 par inputs
                (prepareKinfu K Kc par kinfuParams coloredParams)).state inp).events) ∧
          ∃ ok, Event.update EngineId.kfc ok ∈
            (cycle K Kc toU16 par
              (run K Kc toU16 par inputs
                (prepareKinfu K Kc par kinfuParams coloredParams)).state inp).events)) := by
  have hkf : (prepareKinfu K Kc par kinfuParams coloredParams).kf.isSome = true ↔
      par.kinfu_mode = 1 := by
    unfold prepareKinfu
    by_cases h : par.kinfu_mode = 1 <;> simp [h]
  have hkfc : (prepareKinfu K Kc par kinfuParams coloredParams).kfc.isSome = true ↔
      par.kinfu_mode = 2 := by
    unfold prepareKinfu
    by_cases h : par.kinfu_mode = 2 <;> simp [h]
  refine ⟨⟨hkf, hkfc, ?_⟩, cycle_isSome K Kc toU16 par, ?_⟩
  · rintro ⟨h1, h2⟩
    have e1 := hkf.1 h1
    have e2 := hkfc.1 h2
    omega
  · rintro inputs inp ⟨⟨ok1, h1⟩, ⟨ok2, h2⟩⟩
    obtain ⟨_, _, v1, _, _, _, _, hv1, _⟩ := cycle_update_mem_kf K Kc toU16 par _ inp ok1 h1
    obtain ⟨_, _, v2, _, _, _, _, hv2, _⟩ := cycle_update_mem_kfc K Kc toU16 par _ inp ok2 h2
    have hr := run_isSome K Kc toU16 par inputs (prepareKinfu K Kc par kinfuParams coloredParams)
    rw [hv1] at hr
    rw [hv2] at hr
    have e1 := hkf.1 hr.1.symm
    have e2 := hkfc.1 hr.2.symm
    omega

/-- C6, the code at an input it mishandles: when `depth.ply` (or `color.ply`) cannot be opened,
both export functions go on to write through the null stream instead of reporting an error,
and the cycle of the `s` key ends in undefined behaviour rather than in the next cycle. -/
theorem export_to_unopenable_file :
    savePointsToPly (fun _ => false) scenarioFrame "depth.ply" = SaveResult.nullStream ∧
    saveRGBPointsToPly (fun _ => false) (sampleFrameSet [600, 600, 600, 600]).rgbPoints
        "color.ply" = SaveResult.nullStream ∧
    (cycle sumEngine sumColoredEngine toU16Unit (parOf 1 false)
        (prepareKinfu sumEngine sumColoredEngine (parOf 1 false) () ())
        { frameSet := some (sampleFrameSet [600, 600, 600, 600])
          key := 115
          canOpen := fun _ => false }).control = Control.crash := by
  refine ⟨rfl, rfl, ?_⟩
  decide

/-- Witness of C10 at `kinfu_mode = 1`: after a cycle with a frame, `kf` exists and `kfc` does
not, and only `kf` was updated. -/
theorem at_most_one_engine_witness :
    ((cycle sumEngine sumColoredEngine toU16Unit (parOf 1 false)
          (prepareKinfu sumEngine sumColoredEngine (parOf 1 false) () ())
          (sampleInput [600, 600, 600, 600] (-1))).state.kf.isSome =
        (prepareKinfu sumEngine sumColoredEngine (parOf 1 false) () ()).kf.isSome ∧
      (cycle sumEngine sumColoredEngine toU16Unit (parOf 1 false)
          (prepareKinfu sumEngine sumColoredEngine (parOf 1 false) () ())
          (sampleInput [600, 600, 600, 600] (-1))).state.kfc.isSome =
        (prepareKinfu sumEngine sumColoredEngine (parOf 1 false) () ()).kfc.isSome) ∧
    engineCalls EngineId.kfc
        (cycle sumEngine sumColoredEngine toU16Unit (parOf 1 false)
          (prepareKinfu sumEngine sumColoredEngine (parOf 1 false) () ())
          (sampleInput [600, 600, 600, 600] (-1))).events = [] :=
  ⟨(at_most_one_engine sumEngine sumColoredEngine toU16Unit (parOf 1 false) () ()).2.1 _ _,
    by decide⟩

/-! ### Start-up -/

/-- C11 as stated fails: with a depth intrinsic of width 640 and height 0 and a colour
intrinsic of size 0x0, start-up in depth-only mode does not exit: it builds the camera matrix
(with a frame size of 640x0) and creates the engine `kf`. -/
theorem startup_zero_height_not_rejected :
    (sampleCameraParam 640 0 0 0).depthIntrinsic.height = 0 ∧
    (sampleCameraParam 640 0 0 0).rgbIntrinsic.width = 0 ∧
    (sampleCameraParam 640 0 0 0).rgbIntrinsic.height = 0 ∧
    ∃ cam st,
      startup sumEngine sumColoredEngine (fun _ => ()) (fun _ => ()) (parOf 1 false)
          (sampleCameraParam 640 0 0 0) =
        StartupResult.entered cam st [StartupEvent.cameraMatrix, StartupEvent.createKf] ∧
      cam.kinfu_params.frameSize = (640, 0) ∧ st.kf = some [] :=
  ⟨rfl, rfl, rfl, _, _, rfl, rfl, rfl⟩

/-- C11 (amended): for every camera parameter set in which the width of the depth intrinsic is
zero, start-up prints a diagnostic and exits with `exit(-1)` before the camera matrix and the
reconstruction parameters are built and before any fusion engine is created. -/
theorem startup_exits_on_zero_depth_width (K : Engine Mat) (Kc : Engine (Mat × Mat))
    (kinfuParamsOf : KinfuParams → K.Params) (coloredParamsOf : ColoredKinfuParams → Kc.Params)
    (par : APP_PARAMS_T) (cameraParam : OBCameraParam)
    (hw : cameraParam.depthIntrinsic.width = 0) :
    startup K Kc kinfuParamsOf coloredParamsOf par cameraParam =
      StartupResult.exited (-1)
        [StartupEvent.print "depth width=0 (The camera may not support HW D2C)."] := by
  unfold startup
  rw [if_pos hw]

/-- Witness of the amended C11: all-zero sizes, coloured mode. -/
theorem startup_exits_on_zero_depth_width_witness :
    startup sumEngine sumColoredEngine (fun _ => ()) (fun _ => ()) (parOf 2 true)
        (sampleCameraParam 0 0 0 0) =
      StartupResult.exited (-1)
        [StartupEvent.print "depth width=0 (The camera may not support HW D2C)."] :=
  startup_exits_on_zero_depth_width sumEngine sumColoredEngine (fun _ => ()) (fun _ => ())
    (parOf 2 true) (sampleCameraParam 0 0 0 0) rfl

/-! ### Command line -/

/-- Each option that the parser knows is taken with its value, if it has one, and stores it in
the parameter `usage` names for it; the loop then goes on with the words that remain. -/
theorem parseArgs_known_options (argv0 : String) (par : APP_PARAMS_T) (value : String)
    (rest : List String) :
    parseArgs argv0 par ("-a" :: value :: rest) =
        parseArgs argv0 { par with ob_align_mode := atoi value } rest ∧
      parseArgs argv0 par ("-k" :: value :: rest) =
        parseArgs argv0 { par with kinfu_mode := atoi value } rest ∧
      parseArgs argv0 par ("-kc" :: rest) =
        parseArgs argv0 { par with b_kinfu_coarse := true } rest ∧
      parseArgs argv0 par ("-kr" :: rest) =
        parseArgs argv0 { par with b_kinfu_reset_in_icp_fail := true } rest ∧
      parseArgs argv0 par ("-ks" :: value :: rest) =
        parseArgs argv0 { par with kinfu_show_mode := atoi value } rest ∧
      parseArgs argv0 par ("-md" :: value :: rest) =
        parseArgs argv0 { par with max_depth_mm := atoi value } rest ∧
      parseArgs argv0 par ("-cloff" :: rest) =
        parseArgs argv0 { par with b_opencl_off := true } rest ∧
      parseArgs argv0 par [] = ParseResult.parsed par := by
  refine ⟨rfl, rfl, ?_, ?_, rfl, rfl, ?_, rfl⟩ <;> cases rest <;> rfl

/-- C12, the code at an input it mishandles: `usage` lists the option `-ss` with the parameter
`show_scale`, but the parser has no branch for it; the command line `-ss 0.25` ends in
`unknown option -ss` and `exit(-1)`, wherever the option stands, and `show_scale` is never
set. -/
theorem usage_lists_ss_parser_rejects_it :
    " -ss [show_scale(0.50)]  window show scale" ∈ usage "orbbec_kinfu" APP_PARAMS_T.ctor ∧
    parseCommandLine ["orbbec_kinfu", "-ss", "0.25"] =
      ParseResult.exited (-1) ["unknown option -ss"] ∧
    parseCommandLine ["orbbec_kinfu", "-k", "1", "-ss", "0.25"] =
      ParseResult.exited (-1) ["unknown option -ss"] := by
  decide

/-! ### Depth thresholds -/

/-- With both defaults `0`, one sample becomes `0` when it is below the lower or above the
upper threshold and stays as it is otherwise. -/
theorem truncateSample_zero_defaults (a b v : Nat) :
    truncateSample a b 0 0 v = if v < a ∨ b < v then 0 else v := by
  unfold truncateSample
  simp only []
  split_ifs <;> omega

/-- The conversion to `uint16_t` yields a 16-bit value. -/
theorem toU16_lt (x : FloatVal) : x.toU16 < 2 ^ 16 := by
  unfold FloatVal.toU16
  have h := Int.emod_lt_of_pos x.toCInt (show (0 : Int) < 65536 by norm_num)
  have h0 := Int.emod_nonneg x.toCInt (show (65536 : Int) ≠ 0 by norm_num)
  omega

/-- With enough fuel, a number is below two to the power of its bit length. -/
theorem bitLengthAux_lt (fuel n : Nat) (h : n ≤ fuel) : n < 2 ^ bitLengthAux fuel n := by
  induction fuel generalizing n with
  | zero =>
    have : n = 0 := by omega
    subst this
    simp [bitLengthAux]
  | succ fuel ih =>
    unfold bitLengthAux
    by_cases h0 : n = 0
    · simp [h0]
    · rw [if_neg h0]
      have h2 := ih (n / 2) (by omega)
      rw [pow_succ]
      omega

/-- With enough fuel, a number below `2^j` has at most `j` binary digits. -/
theorem bitLengthAux_le (fuel n j : Nat) (h : n ≤ fuel) (hj : n < 2 ^ j) :
    bitLengthAux fuel n ≤ j := by
  induction fuel generalizing n j with
  | zero => simp [bitLengthAux]
  | succ fuel ih =>
    unfold bitLengthAux
    by_cases h0 : n = 0
    · simp [h0]
    · rw [if_neg h0]
      cases j with
      | zero => simp at hj; omega
      | succ j =>
        have h2 := ih (n / 2) j (by omega) (by rw [pow_succ] at hj; omega)
        omega

/-- The binary logarithm found for an integer quotient below `2^24` is at most 23. -/
theorem ilog2Ratio_le (n den : Nat) (hden : 0 < den) (hn : n < 2 ^ 24) :
    ilog2Ratio (n * den) den ≤ 23 := by
  unfold ilog2Ratio
  simp only []
  have hk : (bitLength (n * den) : Int) - (bitLength den : Int) ≤ 24 := by
    have h1 := bitLengthAux_lt den den le_rfl
    have h2 : n * den < 2 ^ (24 + bitLength den) := by
      rw [pow_add]
      exact Nat.mul_lt_mul'' hn h1
    have h3 := bitLengthAux_le (n * den) (n * den) _ le_rfl h2
    unfold bitLength at *
    omega
  generalize (bitLength (n * den) : Int) - (bitLength den : Int) = k at hk
  by_cases hk0 : 0 ≤ k
  · rw [if_pos hk0]
    by_cases hge : den * 2 ^ k.toNat ≤ n * den
    · simp only [hge, decide_True, if_true]
      have h4 : 2 ^ k.toNat ≤ n := by
        have : 2 ^ k.toNat * den ≤ n * den := by rwa [Nat.mul_comm] at hge
        exact Nat.le_of_mul_le_mul_right this hden
      have h5 : (2 : Nat) ^ k.toNat < 2 ^ 24 := lt_of_le_of_lt h4 hn
      have h6 : k.toNat < 24 := (Nat.pow_lt_pow_iff_right (by norm_num)).1 h5
      omega
    · simp only [hge, decide_False, Bool.false_eq_true, if_false]
      omega
  · rw [if_neg hk0]
    split_ifs <;> omega

/-- The conversion to `uint16_t` of a non-negative finite float below `65536` is its integer
part. -/
theorem toU16_eq_floor (m : Nat) (e : Int) (h : (FloatVal.finite false m e).toRat < 65536) :
    (FloatVal.finite false m e).toU16 = Nat.floor (FloatVal.finite false m e).toRat := by
  by_cases h0 : 0 ≤ e
  · obtain ⟨k, rfl⟩ := Int.eq_ofNat_of_zero_le h0
    have hr : (FloatVal.finite false m (k : Int)).toRat = ((m * 2 ^ k : Nat) : ℚ) := by
      simp [FloatVal.toRat]
    rw [hr] at h ⊢
    have hlt : m * 2 ^ k < 65536 := by exact_mod_cast h
    rw [Nat.floor_natCast]
    simp only [FloatVal.toU16, FloatVal.toCInt, h0, if_true, Int.toNat_ofNat, Bool.false_eq_true,
      if_false]
    have h1 : (-2 ^ 31 : Int) ≤ ((m * 2 ^ k : Nat) : Int) ∧ ((m * 2 ^ k : Nat) : Int) < 2 ^ 31 := by
      constructor <;> omega
    rw [if_pos h1]
    omega
  · have hneg : e < 0 := by omega
    obtain ⟨k, hk⟩ : ∃ k : Nat, e = -(k : Int) := ⟨(-e).toNat, by omega⟩
    subst hk
    have hr : (FloatVal.finite false m (-(k : Int))).toRat = (m : ℚ) / ((2 ^ k : Nat) : ℚ) := by
      simp [FloatVal.toRat, zpow_neg, div_eq_mul_inv]
    rw [hr] at h ⊢
    rw [Nat.floor_div_eq_div]
    have hle : ((m / 2 ^ k : Nat) : ℚ) ≤ (m : ℚ) / ((2 ^ k : Nat) : ℚ) := Nat.cast_div_le
    have hlt : m / 2 ^ k < 65536 := by
      have : ((m / 2 ^ k : Nat) : ℚ) < 65536 := lt_of_le_of_lt hle h
      exact_mod_cast this
    simp only [FloatVal.toU16, FloatVal.toCInt, h0, if_false, Bool.false_eq_true, neg_neg,
      Int.toNat_ofNat]
    generalize m / 2 ^ k = t at hlt ⊢
    have h1 : (-2 ^ 31 : Int) ≤ (t : Int) ∧ (t : Int) < 2 ^ 31 := by
      constructor <;> omega
    rw [if_pos h1]
    omega

/-- An exact quotient is not changed by rounding. -/
theorem roundDivEven_mul (q d : Nat) (hd : 0 < d) : roundDivEven (q * d) d = q := by
  unfold roundDivEven
  simp only [Nat.mul_mod_left, Nat.mul_div_cancel _ hd]
  rw [if_neg]
  omega

/-- A quotient that is an integer below `2^24` is a `float`: rounding returns it unchanged. -/
theorem roundF32_exact (neg : Bool) (n den : Nat) (hden : 0 < den) (hn : n < 2 ^ 24) :
    ∃ m e, roundF32 neg (n * den) den = FloatVal.finite neg m e ∧ (m : ℚ) * (2 : ℚ) ^ e = n := by
  unfold roundF32
  by_cases h0 : n = 0
  · subst h0
    exact ⟨0, 0, by simp, by simp⟩
  · have hnum : n * den ≠ 0 := Nat.mul_ne_zero h0 (by omega)
    rw [if_neg hnum]
    simp only []
    have hlog := ilog2Ratio_le n den hden hn
    generalize ilog2Ratio (n * den) den = l at hlog
    have he : max (l - 23) (-149) ≤ 0 := by omega
    generalize max (l - 23) (-149) = e at he
    have hov : ¬ (104 < e ∨ (e = 104 ∧
        (if 0 ≤ e then roundDivEven (n * den) (den * 2 ^ e.toNat)
          else roundDivEven (n * den * 2 ^ (-e).toNat) den) = 2 ^ 24)) := by omega
    rw [if_neg hov]
    refine ⟨_, e, rfl, ?_⟩
    by_cases h1 : 0 ≤ e
    · have : e = 0 := by omega
      subst this
      simp [roundDivEven_mul n den hden]
    · rw [if_neg h1]
      obtain ⟨k, hk⟩ : ∃ k : Nat, e = -(k : Int) := ⟨(-e).toNat, by omega⟩
      subst hk
      have h2 : n * den * 2 ^ (- -(k : Int)).toNat = (n * 2 ^ k) * den := by
        simp only [neg_neg, Int.toNat_ofNat]
        ring
      rw [h2, roundDivEven_mul _ den hden]
      push_cast
      rw [zpow_neg, zpow_natCast, mul_assoc, mul_inv_cancel₀ (by positivity), mul_one]

/-- When `mm` is a non-negative `int` below `2^24` and the exact quotient of `mm` by a positive
scale is an integer `n` below `65536`, the threshold passed to `truncateDepth` is `n`. -/
theorem depthThreshold_exact (mm : Int) (n m2 : Nat) (e2 : Int) (h0 : 0 ≤ mm) (h24 : mm < 2 ^ 24)
    (hm2 : m2 ≠ 0) (hq : (mm : ℚ) = n * (FloatVal.finite false m2 e2).toRat) (hn : n < 65536) :
    depthThreshold mm (FloatVal.finite false m2 e2) = n := by
  obtain ⟨n1, rfl⟩ := Int.eq_ofNat_of_zero_le h0
  have hn1 : n1 < 2 ^ 24 := by exact_mod_cast h24
  obtain ⟨m1, e1, hf, hv⟩ := roundF32_exact false n1 1 (by norm_num) hn1
  have hint : intToFloat (n1 : Int) = FloatVal.finite false m1 e1 := by
    unfold intToFloat
    have : decide ((n1 : Int) < 0) = false := by simp
    rw [this, Int.natAbs_ofNat]
    rw [Nat.mul_one] at hf
    exact hf
  have hq2 : (m1 : ℚ) * (2 : ℚ) ^ e1 = n * ((m2 : ℚ) * (2 : ℚ) ^ e2) := by
    rw [hv]
    simpa [FloatVal.toRat] using hq
  have hnum : m1 * 2 ^ (e1 - e2).toNat = n * (m2 * 2 ^ (e2 - e1).toNat) := by
    have hA : (((e1 - e2).toNat : Nat) : Int) = ((e2 - e1).toNat : Int) + (e1 - e2) := by omega
    generalize (e1 - e2).toNat = a at hA ⊢
    generalize (e2 - e1).toNat = b at hA ⊢
    have h2 : (2 : ℚ) ^ a = (2 : ℚ) ^ b * ((2 : ℚ) ^ e1 / (2 : ℚ) ^ e2) := by
      rw [← zpow_natCast, ← zpow_natCast, hA, zpow_add₀ (by norm_num), zpow_sub₀ (by norm_num)]
    have h3 : ((m1 * 2 ^ a : Nat) : ℚ) = ((n * (m2 * 2 ^ b) : Nat) : ℚ) := by
      push_cast
      rw [h2]
      have hpos : (2 : ℚ) ^ e2 ≠ 0 := by positivity
      field_simp
      linear_combination (2 : ℚ) ^ b * hq2
    exact_mod_cast h3
  have hden : 0 < m2 * 2 ^ (e2 - e1).toNat := Nat.mul_pos (by omega) (by positivity)
  obtain ⟨m, e, hr, hval⟩ := roundF32_exact false n (m2 * 2 ^ (e2 - e1).toNat) hden (by omega)
  have hdiv : FloatVal.div (FloatVal.finite false m1 e1) (FloatVal.finite false m2 e2) =
      FloatVal.finite false m e := by
    simp only [FloatVal.div, if_neg hm2, Bool.xor_false, hnum]
    exact hr
  have hrat : (FloatVal.finite false m e).toRat = (n : ℚ) := by
    simp [FloatVal.toRat, hval]
  unfold depthThreshold
  rw [hint, hdiv, toU16_eq_floor m e (by rw [hrat]; exact_mod_cast hn), hrat, Nat.floor_natCast]

/-- C13 as stated fails: with `min_depth_mm = 5` and a value scale of `2` the exact quotient is
`2.5`; the sample `2` is below it, yet it is kept, because the threshold that reaches
`truncateDepth` is the quotient cut to the integer `2`. The upper bound is affected as well:
with the default `max_depth_mm = 5000` and the `float` nearest to `0.1` as value scale, the
exact quotient is just below `50000`, the `float` quotient is `50000`, and the sample `50000`
is kept although it is above the exact quotient. -/
theorem conditionDepth_keeps_sample_below_quotient :
    ((conditionDepth depthThreshold { APP_PARAMS_T.ctor with min_depth_mm := 5 }
        ⟨1, 1, [2], FloatVal.finite false 1 1⟩).data = [2] ∧
      ((2 : Nat) : ℚ) < ((5 : Int) : ℚ) / (FloatVal.finite false 1 1).toRat) ∧
    ((conditionDepth depthThreshold APP_PARAMS_T.ctor
        ⟨1, 1, [50000], FloatVal.finite false 13421773 (-27)⟩).data = [50000] ∧
      ((5000 : Int) : ℚ) / (FloatVal.finite false 13421773 (-27)).toRat < ((50000 : Nat) : ℚ)) :=
  ⟨⟨by decide, by norm_num [FloatVal.toRat]⟩, ⟨by decide, by norm_num [FloatVal.toRat]⟩⟩

/-- C13 (amended): in the depth conditioning of the main loop every sample `v` becomes `0` when
`v < Tmin` or `v > Tmax` and is kept unchanged otherwise, where `Tmin` and `Tmax` are the
16-bit unsigned values that C makes of the `float` quotients `min_depth_mm / valueScale` and
`max_depth_mm / valueScale`. For a quotient `q` with `0 ≤ q < 65536` the threshold `T` is `q`
cut to its integer part: `v > T` is the exact comparison `v > q`, while `v < T` is
`v + 1 ≤ q`, not `v < q`. When `0 ≤ mm < 2^24` and the exact quotient of `mm` by a positive
scale is an integer below `65536` (as for a scale of 1), the threshold is that integer. -/
theorem conditionDepth_thresholds (par : APP_PARAMS_T) (depthFrame : DepthFrame)
    (hwf : depthFrame.WellFormed) :
    (conditionDepth depthThreshold par depthFrame).data =
        depthFrame.data.map (fun v =>
          if v < depthThreshold par.min_depth_mm depthFrame.valueScale ∨
              depthThreshold par.max_depth_mm depthFrame.valueScale < v then 0 else v) ∧
      depthThreshold par.min_depth_mm depthFrame.valueScale < 2 ^ 16 ∧
      depthThreshold par.max_depth_mm depthFrame.valueScale < 2 ^ 16 ∧
      (∀ (mm : Int) (m : Nat) (e : Int),
        FloatVal.div (intToFloat mm) depthFrame.valueScale = FloatVal.finite false m e →
        (FloatVal.finite false m e).toRat < 65536 →
        ∀ v : Nat,
          (depthThreshold mm depthFrame.valueScale < v ↔
            (FloatVal.finite false m e).toRat < (v : ℚ)) ∧
          (v < depthThreshold mm depthFrame.valueScale ↔
            (v : ℚ) + 1 ≤ (FloatVal.finite false m e).toRat)) ∧
      (∀ (mm : Int) (n m2 : Nat) (e2 : Int),
        depthFrame.valueScale = FloatVal.finite false m2 e2 → m2 ≠ 0 →
        0 ≤ mm → mm < 2 ^ 24 → (mm : ℚ) = n * depthFrame.valueScale.toRat → n < 65536 →
        depthThreshold mm depthFrame.valueScale = n) := by
  refine ⟨?_, toU16_lt _, toU16_lt _, ?_, ?_⟩
  · unfold conditionDepth
    rw [truncateDepth_data _ _ _ _ _ hwf]
    exact List.map_congr_left (fun v _ => truncateSample_zero_defaults _ _ v)
  · intro mm m e hq hlt v
    have hnn : (0 : ℚ) ≤ (FloatVal.finite false m e).toRat := by
      simp only [FloatVal.toRat, Bool.false_eq_true, if_false, one_mul]
      positivity
    have hT : depthThreshold mm depthFrame.valueScale =
        Nat.floor (FloatVal.finite false m e).toRat := by
      unfold depthThreshold
      rw [hq, toU16_eq_floor m e hlt]
    rw [hT]
    constructor
    · exact Nat.floor_lt hnn
    · rw [← Nat.succ_le_iff, Nat.le_floor_iff hnn]
      push_cast
      rfl
  · intro mm n m2 e2 hs hm2 h0 h24 hq hn
    rw [hs] at hq ⊢
    exact depthThreshold_exact mm n m2 e2 h0 h24 hm2 hq hn

/-- Witness of the amended C13: the default bounds (`0` and `5000` mm) at a value scale of 1 on
a 2x2 grid; only the sample `6000` is replaced. -/
theorem conditionDepth_thresholds_witness :
    (DepthFrame.mk 2 2 [0, 100, 5000, 6000] (FloatVal.ofNat 1)).WellFormed ∧
      (conditionDepth depthThreshold APP_PARAMS_T.ctor
        (DepthFrame.mk 2 2 [0, 100, 5000, 6000] (FloatVal.ofNat 1))).data = [0, 100, 5000, 0] :=
  ⟨⟨rfl, by norm_num, by decide⟩,
    (conditionDepth_thresholds APP_PARAMS_T.ctor
      (DepthFrame.mk 2 2 [0, 100, 5000, 6000] (FloatVal.ofNat 1))
      ⟨rfl, by norm_num, by decide⟩).1.trans (by decide)⟩

end OrbbecKinfu
